import Mathlib

/-!
rr-lkms: the boot command line configuration extractor

A shallow embedding of `config/cmdline_delegate.c` and theorems about it.

Conventions of the embedding

* A C string is the list of its characters before the terminating NUL
  (`CStr`); reading the byte at the terminator gives `NUL`.
* Diagnostics (`pr_loc_dbg`, `pr_loc_wrn`, ...) are collected in a list, in
  the order in which the code emits them.
* `kmalloc` is driven by a list of scheduled outcomes (`Heap`).
* Constants that live in headers outside `cmdline_delegate.c` are fields of
  `Params`; the option literals are taken from the option grammar.
-/

set_option autoImplicit false

namespace RrLkms

/-! ## C strings and the kernel string helpers -/

/-- The characters of a C string, terminator excluded. -/
abbrev CStr := List Char

/-- The terminator byte. -/
def NUL : Char := Char.ofNat 0

/-- Byte `p[i]` of a C string; the terminator is read at `i = strlen p`.
Every read the extractors make beyond the terminator is guarded by a
comparison on an earlier byte that already decided the branch (see
`extract_netif_macs`), so the value given there is immaterial. -/
def char_at (p : CStr) (i : Nat) : Char := p.getD i NUL

/-- Pointer arithmetic `p + n` inside a C string. -/
def advance (p : CStr) (n : Nat) : CStr := p.drop n

/-- The value of `strlen_static(lit)`, the length of a string literal. -/
def strlen_static (lit : String) : Nat := lit.toList.length

/-- The test `strncmp(p, lit, n) == 0` for a literal `lit` and
`n <= strlen(lit) + 1`: the first `n` bytes agree, the terminator of `lit`
included when `n = strlen(lit) + 1`. -/
def strncmp_eq (p : CStr) (lit : String) (n : Nat) : Bool :=
  (List.range n).all fun i => char_at p i == char_at lit.toList i

/-- The macro `ensure_cmdline_param(lit)` lets the extractor go on exactly
when `strncmp(param_pointer, lit, strlen_static(lit)) == 0`. -/
def ensure_cmdline_param (p : CStr) (lit : String) : Bool :=
  strncmp_eq p lit (strlen_static lit)

/-- The macro `ensure_cmdline_token(lit)` compares `sizeof(lit)` bytes, the
terminator included. -/
def ensure_cmdline_token (p : CStr) (lit : String) : Bool :=
  strncmp_eq p lit (strlen_static lit + 1)

/-- Error numbers of the kernel. -/
def EIO_errno : Int := 5
/-- Argument list too long. -/
def E2BIG : Int := 7
/-- Out of memory. -/
def ENOMEM : Int := 12
/-- Invalid argument. -/
def EINVAL : Int := 22
/-- Result out of range. -/
def ERANGE : Int := 34

/-- Kernel `strscpy(dst, src, count)`: the new content of `dst` and the
return value. With `count = 0` nothing is written and `-E2BIG` is returned;
otherwise at most `count - 1` characters are copied and terminated, and the
return value is the number of characters copied, or `-E2BIG` when `src` did
not fit. -/
def strscpy (dst src : CStr) (count : Nat) : CStr × Int :=
  if count = 0 then (dst, -E2BIG)
  else if src.length < count then (src, (src.length : Int))
  else (src.take (count - 1), -E2BIG)

/-- The pieces of `s` between occurrences of `sep`: what successive calls of
`strsep(&s, sep)` return, and also what walking `s` with `strchr(_, sep)`
yields. There is always at least one piece. -/
def split_on (sep : Char) : CStr → List CStr
  | [] => [[]]
  | c :: cs =>
    if c = sep then [] :: split_on sep cs
    else
      match split_on sep cs with
      | [] => [[c]]
      | t :: ts => (c :: t) :: ts

/-! ## Kernel integer parsing (`lib/kstrtox.c`) -/

deriving instance DecidableEq for Except

/-- Largest `unsigned long long`. -/
def ULLONG_MAX : Nat := 2 ^ 64 - 1

/-- One digit of `_parse_integer`: decimal digits by value, letters through
`c | 0x20`. -/
def digit_val (c : Char) : Option Nat :=
  let n := c.toNat
  let lc := n ||| 32
  if 48 ≤ n ∧ n ≤ 57 then some (n - 48)
  else if 97 ≤ lc ∧ lc ≤ 102 then some (lc - 97 + 10)
  else none

/-- Kernel `_parse_integer`: consumes digits below `base`, accumulating in 64
bits. Returns the value, the number of characters consumed and whether the
overflow flag was raised. -/
def parse_integer (base : Nat) : CStr → Nat → Nat → Bool → Nat × Nat × Bool
  | [], res, rv, ovf => (res, rv, ovf)
  | c :: s, res, rv, ovf =>
    match digit_val c with
    | none => (res, rv, ovf)
    | some val =>
      if base ≤ val then (res, rv, ovf)
      else
        let ovf2 := ovf || (decide (2 ^ 60 ≤ res) && decide ((ULLONG_MAX - val) / base < res))
        parse_integer base s ((res * base + val) % 2 ^ 64) (rv + 1) ovf2

/-- Kernel `_tolower(c) == x`. -/
def is_x (c : Char) : Bool := c.toNat ||| 32 == 120

/-- Kernel `isxdigit`. -/
def isxdigit (c : Char) : Bool :=
  let n := c.toNat
  (decide (48 ≤ n) && decide (n ≤ 57)) || (decide (65 ≤ n) && decide (n ≤ 70)) ||
    (decide (97 ≤ n) && decide (n ≤ 102))

/-- Kernel `_parse_integer_fixup_radix`: the base in effect and the string
after an optional `0x`. -/
def parse_integer_fixup_radix (s : CStr) (base : Nat) : CStr × Nat :=
  let base1 :=
    if base = 0 then
      if char_at s 0 = Char.ofNat 48 then
        if is_x (char_at s 1) && isxdigit (char_at s 2) then 16 else 8
      else 10
    else base
  if base1 = 16 ∧ char_at s 0 = Char.ofNat 48 ∧ is_x (char_at s 1) = true then
    (advance s 2, base1)
  else (s, base1)

/-- Kernel `_kstrtoull`: the whole string must be a number, optionally
followed by one newline. -/
def kstrtoull_core (s : CStr) (base : Nat) : Except Int Nat :=
  let (s1, base1) := parse_integer_fixup_radix s base
  let (res, rv, ovf) := parse_integer base1 s1 0 0 false
  if ovf then Except.error (-ERANGE)
  else if rv = 0 then Except.error (-EINVAL)
  else
    let s2 := advance s1 rv
    let s3 := if char_at s2 0 = Char.ofNat 10 then advance s2 1 else s2
    if s3 ≠ [] then Except.error (-EINVAL) else Except.ok res

/-- Kernel `kstrtoull`: one leading plus sign is skipped. -/
def kstrtoull (s : CStr) (base : Nat) : Except Int Nat :=
  kstrtoull_core (if char_at s 0 = Char.ofNat 43 then advance s 1 else s) base

/-- Kernel `kstrtoll`: a signed 64-bit number or an error code. -/
def kstrtoll (s : CStr) (base : Nat) : Except Int Int :=
  if char_at s 0 = Char.ofNat 45 then
    match kstrtoull_core (advance s 1) base with
    | Except.error e => Except.error e
    | Except.ok tmp => if 2 ^ 63 < tmp then Except.error (-ERANGE) else Except.ok (-(tmp : Int))
  else
    match kstrtoull s base with
    | Except.error e => Except.error e
    | Except.ok tmp => if 2 ^ 63 ≤ tmp then Except.error (-ERANGE) else Except.ok (tmp : Int)

/-- Reinterpretation of a 64-bit pattern as `long`. -/
def to_long (n : Nat) : Int :=
  if n % 2 ^ 64 < 2 ^ 63 then ((n % 2 ^ 64 : Nat) : Int) else ((n % 2 ^ 64 : Nat) : Int) - 2 ^ 64

/-- Kernel `simple_strtol(s, NULL, base)`: leading digits only, no error
reporting, the value wrapping in 64 bits. -/
def simple_strtol (s : CStr) (base : Nat) : Int :=
  let body := if char_at s 0 = Char.ofNat 45 then advance s 1 else s
  let (s1, base1) := parse_integer_fixup_radix body base
  let (res, _, _) := parse_integer base1 s1 0 0 false
  if char_at s 0 = Char.ofNat 45 then to_long (2 ^ 64 - res) else to_long res

/-! ## Constants, data model, diagnostics -/

/-- Constants defined in headers outside `cmdline_delegate.c`. -/
structure Params where
  /-- Capacity of the MAC list; the source requires it to be at most 9. -/
  MAX_NET_IFACES : Nat
  /-- Largest accepted vendor or product id. -/
  VID_PID_MAX : Int
  /-- Size of the command line cache. -/
  CMDLINE_MAX : Nat
  /-- The value of `sizeof(syno_hw)`. -/
  SIZEOF_syno_hw : Nat
  /-- The value of `sizeof(serial_no)`. -/
  SIZEOF_serial_no : Nat
  /-- The value of `sizeof(mac_address)`. -/
  SIZEOF_mac_address : Nat
  /-- Capacity of the list of redacted tokens. -/
  MAX_BLACKLISTED_CMDLINE_TOKENS : Nat
  /-- Whether the build defines `NATIVE_SATA_DOM_SUPPORTED`. -/
  NATIVE_SATA_DOM_SUPPORTED : Bool
  /-- Literal of the elevator key. -/
  CMDLINE_KT_ELEVATOR : String
  /-- Literal of the log level key. -/
  CMDLINE_KT_LOGLEVEL : String
  /-- Literal of the printk buffer key. -/
  CMDLINE_KT_PK_BUFFER : String
  /-- Literal of the early printk key. -/
  CMDLINE_KT_EARLY_PK : String
  /-- The value the macros `kmalloc_or_exit_int` and `kzalloc_or_exit_int`
  make the enclosing function return when the allocation fails. -/
  KALLOC_EXIT_CODE : Int

/-- Modelled from the spec: the literal of `CMDLINE_KT_HW` (the header that
defines the option literals is not part of the sources at hand). -/
def CMDLINE_KT_HW : String := "syno_hw_version="
/-- Modelled from the spec: the literal of `CMDLINE_KT_SN`. -/
def CMDLINE_KT_SN : String := "sn="
/-- Modelled from the spec: the literal of `CMDLINE_KT_SATADOM`. -/
def CMDLINE_KT_SATADOM : String := "satadom="
/-- Modelled from the spec: the value character that selects the native SATA DoM. -/
def CMDLINE_KT_SATADOM_NATIVE : Char := '1'
/-- Modelled from the spec: the value character that selects the fake SATA disk. -/
def CMDLINE_KT_SATADOM_FAKE : Char := '2'
/-- Modelled from the spec: the value character that disables SATA boot media. -/
def CMDLINE_KT_SATADOM_DISABLED : Char := '0'
/-- Modelled from the spec: the literal of `CMDLINE_CT_VID`. -/
def CMDLINE_CT_VID : String := "vid="
/-- Modelled from the spec: the literal of `CMDLINE_CT_PID`. -/
def CMDLINE_CT_PID : String := "pid="
/-- Modelled from the spec: the literal of `CMDLINE_CT_MFG`. -/
def CMDLINE_CT_MFG : String := "mfg"
/-- Modelled from the spec: the literal of `CMDLINE_CT_DOM_SZMAX`. -/
def CMDLINE_CT_DOM_SZMAX : String := "dom_szmax="
/-- Modelled from the spec: the literal of `CMDLINE_KT_THAW`. -/
def CMDLINE_KT_THAW : String := "syno_port_thaw="
/-- Modelled from the spec: the literal of `CMDLINE_KT_NETIF_NUM`. -/
def CMDLINE_KT_NETIF_NUM : String := "netif_num="
/-- Modelled from the spec: the literal of `CMDLINE_KT_MACS`. -/
def CMDLINE_KT_MACS : String := "macs="
/-- Modelled from the spec: the literal of `CMDLINE_KT_MAC1`, the first
indexed MAC key. -/
def CMDLINE_KT_MAC1 : String := "mac1="
/-- Modelled from the spec: the token separator `CMDLINE_SEP`, one space. -/
def CMDLINE_SEP : Char := Char.ofNat 32

/-- Modelled from the spec: the boot media types; `BOOT_MEDIA_UNSET` is the
default the spec calls Unset. -/
inductive boot_media_type where
  | BOOT_MEDIA_UNSET
  | BOOT_MEDIA_SATA_DOM
  | BOOT_MEDIA_SATA_DISK
  deriving DecidableEq, Repr

/-- The record `struct boot_media`. Ids are `device_id` values (16 bits). -/
structure boot_media where
  type : boot_media_type
  vid : Nat
  pid : Nat
  dom_size_mib : Int
  mfg_mode : Bool
  deriving DecidableEq, Repr

/-- The record `struct runtime_config`. A slot of `macs` or of
`cmdline_blacklist` is `none` for a null pointer and `some s` for an
allocated string holding `s`. -/
structure runtime_config where
  hw : CStr
  sn : CStr
  boot_media : boot_media
  port_thaw : Bool
  netif_num : Nat
  macs : List (Option CStr)
  cmdline_blacklist : List (Option CStr)
  deriving DecidableEq, Repr

/-- The zeroed configuration a caller hands to the extraction. -/
def default_config (P : Params) : runtime_config where
  hw := []
  sn := []
  boot_media := {
    type := boot_media_type.BOOT_MEDIA_UNSET, vid := 0, pid := 0, dom_size_mib := 0,
    mfg_mode := false }
  port_thaw := false
  netif_num := 0
  macs := List.replicate P.MAX_NET_IFACES none
  cmdline_blacklist := List.replicate P.MAX_BLACKLISTED_CMDLINE_TOKENS none

/-- Severity of a diagnostic: `pr_loc_dbg`, `pr_loc_inf`, `pr_loc_wrn`,
`pr_loc_err`, `pr_loc_crt`. -/
inductive Level where
  | dbg | inf | wrn | err | crt
  deriving DecidableEq, Repr

/-- The message of a diagnostic, one constructor per call site, with the
arguments the format string prints. -/
inductive Msg where
  | hw_truncated (n : Nat)
  | hw_set (model : CStr)
  | sn_truncated (n : Nat)
  | sn_set (sn : CStr)
  | satadom_native
  | satadom_fake
  | satadom_disabled
  | satadom_invalid (value : Char)
  | kstrtoll_failed (rc : Int)
  | vid_too_large (max : Int)
  | vid_overwrite (old new : Nat)
  | vid_set (vid : Nat)
  | pid_too_large (max : Int)
  | pid_overwrite (old new : Nat)
  | pid_set (pid : Nat)
  | mfg_requested
  | dom_invalid (size : Int)
  | dom_set (size : Int)
  | thaw_invalid (value : Int)
  | thaw_set (value : Nat)
  | netif_none
  | netif_invalid (value : Int)
  | netif_set (value : Int)
  | mac_alloc_failure (i : Nat)
  | mac_truncated (n : Nat) (len : Nat)
  | mac_set (n : Nat) (mac : CStr)
  | mac_too_many (max : Nat)
  | unrecognized (tok : CStr)
  | cmdline_count (n : Nat)
  | cmdline_truncated (max : Nat)
  | cmdline_failed
  | blacklist_add (tok : CStr) (idx : Nat)
  | alloc_failure
  | extract_failed
  | cmdline_text (txt : CStr)
  | param_seen (n : Nat) (tok : CStr)
  | processed (tokens : Nat)
  deriving DecidableEq, Repr

/-- One emitted diagnostic. -/
structure Diag where
  level : Level
  msg : Msg
  deriving DecidableEq, Repr

/-- Scheduled outcomes of the coming `kmalloc` calls, `true` for success;
once the schedule is used up every allocation succeeds. -/
abbrev Heap := List Bool

/-- One `kmalloc` call: whether it returned memory, and the remaining
schedule. -/
def kmalloc : Heap → Bool × Heap
  | [] => (true, [])
  | b :: rest => (b, rest)

/-- The value of `(unsigned int)x` for a `long long` x. -/
def to_uint (x : Int) : Nat := (x % 2 ^ 32).toNat

/-- Storing an `unsigned int` in a `device_id`.
Modelled from the spec: `device_id` is 16 bits wide and unsigned. -/
def to_device_id (x : Nat) : Nat := x % 2 ^ 16

/-- The value of a byte read through `char`, which is signed on the x86
targets of the module: bytes from 128 on are negative. -/
def char_val (c : Char) : Int :=
  if c.toNat < 128 then (c.toNat : Int) else ((c.toNat % 128 : Nat) : Int) - 128

/-! ## The extractors -/

/-- Source `extract_hw`: whether the token matched, the new field, the
diagnostics. -/
def extract_hw (P : Params) (model : CStr) (param_pointer : CStr) : Bool × CStr × List Diag :=
  if ensure_cmdline_param param_pointer CMDLINE_KT_HW then
    let r := strscpy model (advance param_pointer (strlen_static CMDLINE_KT_HW)) P.SIZEOF_syno_hw
    let w := if r.2 < 0 then [Diag.mk Level.wrn (Msg.hw_truncated (P.SIZEOF_syno_hw - 1))] else []
    (true, r.1, w ++ [Diag.mk Level.dbg (Msg.hw_set r.1)])
  else (false, model, [])

/-- Source `extract_sn`. -/
def extract_sn (P : Params) (sn : CStr) (param_pointer : CStr) : Bool × CStr × List Diag :=
  if ensure_cmdline_param param_pointer CMDLINE_KT_SN then
    let r := strscpy sn (advance param_pointer (strlen_static CMDLINE_KT_SN)) P.SIZEOF_serial_no
    let w := if r.2 < 0 then [Diag.mk Level.wrn (Msg.sn_truncated (P.SIZEOF_serial_no - 1))] else []
    (true, r.1, w ++ [Diag.mk Level.dbg (Msg.sn_set r.1)])
  else (false, sn, [])

/-- Source `extract_boot_media_type`: a `switch` on the byte after the key. -/
def extract_boot_media_type (bm : boot_media) (param_pointer : CStr) :
    Bool × boot_media × List Diag :=
  if ensure_cmdline_param param_pointer CMDLINE_KT_SATADOM then
    let value := char_at param_pointer (strlen_static CMDLINE_KT_SATADOM)
    if value = CMDLINE_KT_SATADOM_NATIVE then
      (true, { bm with type := boot_media_type.BOOT_MEDIA_SATA_DOM },
        [Diag.mk Level.dbg Msg.satadom_native])
    else if value = CMDLINE_KT_SATADOM_FAKE then
      (true, { bm with type := boot_media_type.BOOT_MEDIA_SATA_DISK },
        [Diag.mk Level.dbg Msg.satadom_fake])
    else if value = CMDLINE_KT_SATADOM_DISABLED then
      (true, bm, [Diag.mk Level.wrn Msg.satadom_disabled])
    else (true, bm, [Diag.mk Level.err (Msg.satadom_invalid value)])
  else (false, bm, [])

/-- Source `extract_vid`, on the `device_id` it is pointed at. -/
def extract_vid (P : Params) (user_vid : Nat) (param_pointer : CStr) : Bool × Nat × List Diag :=
  if ensure_cmdline_param param_pointer CMDLINE_CT_VID then
    match kstrtoll (advance param_pointer (strlen_static CMDLINE_CT_VID)) 0 with
    | Except.error rc => (true, user_vid, [Diag.mk Level.err (Msg.kstrtoll_failed rc)])
    | Except.ok numeric_param =>
      if numeric_param > P.VID_PID_MAX then
        (true, user_vid, [Diag.mk Level.err (Msg.vid_too_large P.VID_PID_MAX)])
      else
        let w := if user_vid ≠ 0 then
          [Diag.mk Level.wrn (Msg.vid_overwrite user_vid (to_uint numeric_param))] else []
        let v := to_device_id (to_uint numeric_param)
        (true, v, w ++ [Diag.mk Level.dbg (Msg.vid_set v)])
  else (false, user_vid, [])

/-- Source `extract_pid`, on the `device_id` it is pointed at. -/
def extract_pid (P : Params) (user_pid : Nat) (param_pointer : CStr) : Bool × Nat × List Diag :=
  if ensure_cmdline_param param_pointer CMDLINE_CT_PID then
    match kstrtoll (advance param_pointer (strlen_static CMDLINE_CT_PID)) 0 with
    | Except.error rc => (true, user_pid, [Diag.mk Level.err (Msg.kstrtoll_failed rc)])
    | Except.ok numeric_param =>
      if numeric_param > P.VID_PID_MAX then
        (true, user_pid, [Diag.mk Level.err (Msg.pid_too_large P.VID_PID_MAX)])
      else
        let w := if user_pid ≠ 0 then
          [Diag.mk Level.wrn (Msg.pid_overwrite user_pid (to_uint numeric_param))] else []
        let v := to_device_id (to_uint numeric_param)
        (true, v, w ++ [Diag.mk Level.dbg (Msg.pid_set v)])
  else (false, user_pid, [])

/-- Source `extract_mfg`: the whole token, terminator included, is compared. -/
def extract_mfg (is_mfg_boot : Bool) (param_pointer : CStr) : Bool × Bool × List Diag :=
  if ensure_cmdline_token param_pointer CMDLINE_CT_MFG then
    (true, true, [Diag.mk Level.dbg Msg.mfg_requested])
  else (false, is_mfg_boot, [])

/-- Source `extract_dom_max_size`. -/
def extract_dom_max_size (bm : boot_media) (param_pointer : CStr) :
    Bool × boot_media × List Diag :=
  if ensure_cmdline_param param_pointer CMDLINE_CT_DOM_SZMAX then
    let size_mib := simple_strtol (advance param_pointer (strlen_static CMDLINE_CT_DOM_SZMAX)) 10
    if size_mib ≤ 0 then (true, bm, [Diag.mk Level.err (Msg.dom_invalid size_mib)])
    else (true, { bm with dom_size_mib := size_mib }, [Diag.mk Level.dbg (Msg.dom_set size_mib)])
  else (false, bm, [])

/-- Source `extract_port_thaw`. The error branch is taken for the terminator
only; every other byte reaches `out_found`, whose message prints
`port_thaw?1:0` for the (non-null) pointer, that is 1. -/
def extract_port_thaw (port_thaw : Bool) (param_pointer : CStr) : Bool × Bool × List Diag :=
  if ensure_cmdline_param param_pointer CMDLINE_KT_THAW then
    let value := char_val (char_at param_pointer (strlen_static CMDLINE_KT_THAW))
    if value = 48 then (true, false, [Diag.mk Level.dbg (Msg.thaw_set 1)])
    else if value = 49 then (true, true, [Diag.mk Level.dbg (Msg.thaw_set 1)])
    else if value = 0 then (true, port_thaw, [Diag.mk Level.err (Msg.thaw_invalid value)])
    else (true, port_thaw, [Diag.mk Level.dbg (Msg.thaw_set 1)])
  else (false, port_thaw, [])

/-- Source `extract_netif_num`: only the byte after the key is read. -/
def extract_netif_num (netif_num : Nat) (param_pointer : CStr) : Bool × Nat × List Diag :=
  if ensure_cmdline_param param_pointer CMDLINE_KT_NETIF_NUM then
    let value := char_val (char_at param_pointer (strlen_static CMDLINE_KT_NETIF_NUM)) - 48
    if value = 0 then (true, netif_num, [Diag.mk Level.wrn Msg.netif_none])
    else if value < 1 ∨ value > 9 then
      (true, netif_num, [Diag.mk Level.err (Msg.netif_invalid value)])
    else (true, value.toNat, [Diag.mk Level.dbg (Msg.netif_set value)])
  else (false, netif_num, [])

/-- The body shared by the three places of `extract_netif_macs` that fill
slot `i`: `macs[i] = kmalloc(...)`, on failure the critical message (the slot
then holds the null pointer), else `strscpy` of `src` with the truncation
warning and the debug message. The flag tells whether the allocation
succeeded. -/
def store_mac (P : Params) (i : Nat) (src : CStr) (macs : List (Option CStr)) (heap : Heap) :
    Bool × List (Option CStr) × Heap × List Diag :=
  match kmalloc heap with
  | (false, heap1) => (false, macs.set i none, heap1, [Diag.mk Level.crt (Msg.mac_alloc_failure i)])
  | (true, heap1) =>
    let r := strscpy [] src P.SIZEOF_mac_address
    let w := if r.2 < 0 then
      [Diag.mk Level.wrn (Msg.mac_truncated (i + 1) (P.SIZEOF_mac_address - 1))] else []
    (true, macs.set i (some r.1), heap1, w ++ [Diag.mk Level.dbg (Msg.mac_set (i + 1) r.1)])

/-- The bulk branch of `extract_netif_macs` over the pieces of the text
after `macs=`, `i` being the running slot index. A piece followed by a comma
is stored while `MAX_NET_IFACES > i` (the `while` loop); the fragment after
the last comma is stored when it is not empty and `MAX_NET_IFACES > i`; an
allocation failure leaves through `out_found`. -/
def macs_bulk (P : Params) :
    List CStr → Nat → List (Option CStr) → Heap → List (Option CStr) × Heap × List Diag
  | [], _, macs, heap => (macs, heap, [])
  | [t], i, macs, heap =>
    if t ≠ [] ∧ i < P.MAX_NET_IFACES then (store_mac P i t macs heap).2
    else (macs, heap, [])
  | t :: t2 :: ts, i, macs, heap =>
    if i < P.MAX_NET_IFACES then
      match store_mac P i t macs heap with
      | (false, r) => r
      | (true, macs1, heap1, log1) =>
        let r := macs_bulk P (t2 :: ts) (i + 1) macs1 heap1
        (r.1, r.2.1, log1 ++ r.2.2)
    else (macs, heap, [])

/-- The loop `for (; i < MAX_NET_IFACES; i++)` of the indexed branch, with
`n` iterations left from slot `i`: the first null slot is filled; when the
loop runs out the error after it is emitted. -/
def macs_first_free (P : Params) (src : CStr) :
    Nat → Nat → List (Option CStr) → Heap → List (Option CStr) × Heap × List Diag
  | 0, _, macs, heap => (macs, heap, [Diag.mk Level.err (Msg.mac_too_many P.MAX_NET_IFACES)])
  | n + 1, i, macs, heap =>
    match macs.getD i none with
    | some _ => macs_first_free P src n (i + 1) macs heap
    | none => (store_mac P i src macs heap).2

/-- Source `extract_netif_macs`. -/
def extract_netif_macs (P : Params) (macs : List (Option CStr)) (heap : Heap)
    (param_pointer : CStr) : Bool × List (Option CStr) × Heap × List Diag :=
  if strncmp_eq param_pointer CMDLINE_KT_MACS (strlen_static CMDLINE_KT_MACS) then
    (true, macs_bulk P
      (split_on ',' (advance param_pointer (strlen_static CMDLINE_KT_MACS))) 0 macs heap)
  else if strncmp_eq param_pointer "mac" 3 = false ∨ char_at param_pointer 4 ≠ '=' ∨
      char_val (char_at param_pointer 3) < 49 ∨
      char_val (char_at param_pointer 3) > 49 + ((P.MAX_NET_IFACES : Int) - 1) then
    (false, macs, heap, [])
  else
    (true, macs_first_free P (advance param_pointer (strlen_static CMDLINE_KT_MAC1))
      P.MAX_NET_IFACES 0 macs heap)

/-- Source `report_unrecognized_option`. -/
def report_unrecognized_option (param_pointer : CStr) : Bool × List Diag :=
  (true, [Diag.mk Level.dbg (Msg.unrecognized param_pointer)])

/-! ## The command line cache -/

/-- Modelled from the spec: the outcome of the raw line provider
`_cmdline_proc_show`, whose contract is
`fetch(buffer, capacity) -> bytes_written | error`: an error code other than
zero with the buffer left alone, or the bytes put in the buffer together
with the count reported in the `seq_file`. -/
inductive Fetch where
  | error (rc : Int)
  | written (text : CStr) (count : Nat)
  deriving DecidableEq, Repr

/-- Modelled from the spec: the provider, as a function of the number of
earlier calls and the capacity handed to it. -/
abbrev Provider := Nat → Nat → Fetch

/-- The module state the cache functions work on: the static buffer
`cmdline_cache` read as a C string, and the number of calls made to the
provider so far. -/
structure Kernel where
  cmdline_cache : CStr
  proc_show_calls : Nat
  deriving DecidableEq, Repr

/-- The C string a buffer of `cap` bytes holds after `text` was written to
it: the bytes before the first terminator, within the buffer. -/
def buffer_cstr (cap : Nat) (text : CStr) : CStr :=
  (text.takeWhile fun c => c ≠ NUL).take (cap - 1)

/-- Source `extract_kernel_cmdline`: return value, new state, diagnostics.
A provider outcome `error 0` stands for a return of 0 with nothing written
and a count of 0. -/
def extract_kernel_cmdline (P : Params) (prov : Provider) (K : Kernel) :
    Int × Kernel × List Diag :=
  match prov K.proc_show_calls P.CMDLINE_MAX with
  | Fetch.error rc =>
    if rc ≠ 0 then (rc, { K with proc_show_calls := K.proc_show_calls + 1 }, [])
    else (0, { K with proc_show_calls := K.proc_show_calls + 1 },
      [Diag.mk Level.dbg (Msg.cmdline_count 0)] ++
        (if 0 = P.CMDLINE_MAX then [Diag.mk Level.wrn (Msg.cmdline_truncated P.CMDLINE_MAX)]
          else []))
  | Fetch.written text count =>
    (0, { cmdline_cache := buffer_cstr P.CMDLINE_MAX text,
          proc_show_calls := K.proc_show_calls + 1 },
      [Diag.mk Level.dbg (Msg.cmdline_count (count % 2 ^ 32))] ++
        (if count = P.CMDLINE_MAX then [Diag.mk Level.wrn (Msg.cmdline_truncated P.CMDLINE_MAX)]
          else []))

/-- Source `get_kernel_cmdline`: return value, the text copied to
`cmdline_out` (when the copy is reached), new state, diagnostics. -/
def get_kernel_cmdline (P : Params) (prov : Provider) (K : Kernel) (cmdline_out : CStr)
    (maxlen : Nat) : Int × CStr × Kernel × List Diag :=
  let fetched : Int × Kernel × List Diag :=
    if K.cmdline_cache = [] then extract_kernel_cmdline P prov K else (0, K, [])
  if fetched.1 ≠ 0 then
    (fetched.1, cmdline_out, fetched.2.1,
      fetched.2.2 ++ [Diag.mk Level.err Msg.cmdline_failed])
  else
    let maxlen1 := if maxlen > P.CMDLINE_MAX then P.CMDLINE_MAX else maxlen
    let r := strscpy cmdline_out fetched.2.1.cmdline_cache maxlen1
    (r.2, r.1, fetched.2.1, fetched.2.2)

/-! ## The list of redacted tokens -/

/-- The `ADD_BLACKLIST_ENTRY` lines of `populate_cmdline_blacklist`, in
source order: index and token. The last one is compiled only without
`NATIVE_SATA_DOM_SUPPORTED`. -/
def blacklist_entries (P : Params) : List (Nat × String) :=
  [(0, CMDLINE_CT_VID), (1, CMDLINE_CT_PID), (2, CMDLINE_CT_MFG), (3, CMDLINE_CT_DOM_SZMAX),
    (4, P.CMDLINE_KT_ELEVATOR), (5, P.CMDLINE_KT_LOGLEVEL), (6, P.CMDLINE_KT_PK_BUFFER),
    (7, P.CMDLINE_KT_EARLY_PK), (8, CMDLINE_KT_THAW)] ++
  (if P.NATIVE_SATA_DOM_SUPPORTED then [] else [(9, CMDLINE_KT_SATADOM)])

/-- The macro `ADD_BLACKLIST_ENTRY(idx, token)` for each listed entry in
turn: `kmalloc_or_exit_int` (on failure the slot holds the null pointer and
the function returns at once), `strcpy`, debug message; then `return 0`. -/
def add_blacklist_entries (P : Params) :
    List (Nat × String) → List (Option CStr) → Heap → Int × List (Option CStr) × Heap × List Diag
  | [], bl, heap => (0, bl, heap, [])
  | e :: rest, bl, heap =>
    match kmalloc heap with
    | (false, heap1) =>
      (P.KALLOC_EXIT_CODE, bl.set e.1 none, heap1, [Diag.mk Level.crt Msg.alloc_failure])
    | (true, heap1) =>
      let r := add_blacklist_entries P rest (bl.set e.1 (some e.2.toList)) heap1
      (r.1, r.2.1, r.2.2.1, Diag.mk Level.dbg (Msg.blacklist_add e.2.toList e.1) :: r.2.2.2)

/-- Source `populate_cmdline_blacklist`; `model` is not used by the body. -/
def populate_cmdline_blacklist (P : Params) (cmdline_blacklist : List (Option CStr))
    (_model : CStr) (heap : Heap) : Int × List (Option CStr) × Heap × List Diag :=
  add_blacklist_entries P (blacklist_entries P) cmdline_blacklist heap

/-! ## The extractor pipeline -/

/-- An extractor as it is called in `extract_config_from_cmdline`, on the
field of the configuration it is given: whether it matched, the
configuration and allocator afterwards, the diagnostics. -/
abbrev Matcher := runtime_config → Heap → CStr → Bool × runtime_config × Heap × List Diag

/-- The call `extract_hw(&config->hw, single_param_chunk)`. -/
def on_hw (P : Params) : Matcher := fun config heap p =>
  let r := extract_hw P config.hw p
  (r.1, { config with hw := r.2.1 }, heap, r.2.2)

/-- The call `extract_sn(&config->sn, single_param_chunk)`. -/
def on_sn (P : Params) : Matcher := fun config heap p =>
  let r := extract_sn P config.sn p
  (r.1, { config with sn := r.2.1 }, heap, r.2.2)

/-- The call `extract_boot_media_type(&config->boot_media, single_param_chunk)`. -/
def on_boot_media_type : Matcher := fun config heap p =>
  let r := extract_boot_media_type config.boot_media p
  (r.1, { config with boot_media := r.2.1 }, heap, r.2.2)

/-- The call `extract_vid(&config->boot_media.vid, single_param_chunk)`. -/
def on_vid (P : Params) : Matcher := fun config heap p =>
  let r := extract_vid P config.boot_media.vid p
  (r.1, { config with boot_media := { config.boot_media with vid := r.2.1 } }, heap, r.2.2)

/-- The call `extract_pid(&config->boot_media.pid, single_param_chunk)`. -/
def on_pid (P : Params) : Matcher := fun config heap p =>
  let r := extract_pid P config.boot_media.pid p
  (r.1, { config with boot_media := { config.boot_media with pid := r.2.1 } }, heap, r.2.2)

/-- The call `extract_dom_max_size(&config->boot_media, single_param_chunk)`. -/
def on_dom_max_size : Matcher := fun config heap p =>
  let r := extract_dom_max_size config.boot_media p
  (r.1, { config with boot_media := r.2.1 }, heap, r.2.2)

/-- The call `extract_mfg(&config->boot_media.mfg_mode, single_param_chunk)`. -/
def on_mfg : Matcher := fun config heap p =>
  let r := extract_mfg config.boot_media.mfg_mode p
  (r.1, { config with boot_media := { config.boot_media with mfg_mode := r.2.1 } }, heap, r.2.2)

/-- The call `extract_port_thaw(&config->port_thaw, single_param_chunk)`. -/
def on_port_thaw : Matcher := fun config heap p =>
  let r := extract_port_thaw config.port_thaw p
  (r.1, { config with port_thaw := r.2.1 }, heap, r.2.2)

/-- The call `extract_netif_num(&config->netif_num, single_param_chunk)`. -/
def on_netif_num : Matcher := fun config heap p =>
  let r := extract_netif_num config.netif_num p
  (r.1, { config with netif_num := r.2.1 }, heap, r.2.2)

/-- The call `extract_netif_macs(config->macs, single_param_chunk)`. -/
def on_netif_macs (P : Params) : Matcher := fun config heap p =>
  let r := extract_netif_macs P config.macs heap p
  (r.1, { config with macs := r.2.1 }, r.2.2.1, r.2.2.2)

/-- The call `report_unrecognized_option(single_param_chunk)`. -/
def on_unrecognized : Matcher := fun config heap p =>
  let r := report_unrecognized_option p
  (r.1, config, heap, r.2)

/-- The ten option matchers in the order of the `||` chain. -/
def matchers (P : Params) : List Matcher :=
  [on_hw P, on_sn P, on_boot_media_type, on_vid P, on_pid P, on_dom_max_size, on_mfg,
    on_port_thaw, on_netif_num, on_netif_macs P]

/-- A chain `m1(..) || m2(..) || ...`: the calls are made from the left
until one returns true; each call works on the state the previous ones
left. -/
def first_match : List Matcher → Matcher
  | [] => fun config heap _ => (false, config, heap, [])
  | m :: ms => fun config heap p =>
    let r := m config heap p
    if r.1 then r
    else
      let r2 := first_match ms r.2.1 r.2.2.1 p
      (r2.1, r2.2.1, r2.2.2.1, r.2.2.2 ++ r2.2.2.2)

/-- The expression statement of the token loop: the ten matchers, then
`report_unrecognized_option`. -/
def pipeline_step (P : Params) : Matcher :=
  first_match (matchers P ++ [on_unrecognized])

/-- The loop `while ((single_param_chunk = strsep(...)) != NULL)` over the
chunks `strsep` yields, `param_counter` being the running count: empty
chunks are skipped, every other one is traced and offered to the chain.
Gives the final count, configuration and allocator, and the diagnostics. -/
def process_chunks (P : Params) :
    List CStr → Nat → runtime_config → Heap → Nat × runtime_config × Heap × List Diag
  | [], n, config, heap => (n, config, heap, [])
  | chunk :: rest, n, config, heap =>
    if char_at chunk 0 = NUL then process_chunks P rest n config heap
    else
      let r := pipeline_step P config heap chunk
      let r2 := process_chunks P rest (n + 1) r.2.1 r.2.2.1
      (r2.1, r2.2.1, r2.2.2.1,
        Diag.mk Level.dbg (Msg.param_seen n chunk) :: (r.2.2.2 ++ r2.2.2.2))

/-- What a call of `extract_config_from_cmdline` leaves behind. -/
structure Outcome where
  ret : Int
  config : runtime_config
  kernel : Kernel
  heap : Heap
  log : List Diag
  deriving DecidableEq, Repr

/-- Source `extract_config_from_cmdline`. -/
def extract_config_from_cmdline (P : Params) (prov : Provider) (K : Kernel)
    (config : runtime_config) (heap : Heap) : Outcome :=
  match kmalloc heap with
  | (false, heap1) =>
    { ret := P.KALLOC_EXIT_CODE, config := config, kernel := K, heap := heap1,
      log := [Diag.mk Level.crt Msg.alloc_failure] }
  | (true, heap1) =>
    let g := get_kernel_cmdline P prov K [] P.CMDLINE_MAX
    if g.1 ≤ 0 then
      { ret := -EIO_errno, config := config, kernel := g.2.2.1, heap := heap1,
        log := g.2.2.2 ++ [Diag.mk Level.crt Msg.extract_failed] }
    else
      let l := process_chunks P (split_on CMDLINE_SEP g.2.1) 0 config heap1
      let b := populate_cmdline_blacklist P l.2.1.cmdline_blacklist l.2.1.hw l.2.2.1
      let log := g.2.2.2 ++ [Diag.mk Level.dbg (Msg.cmdline_text g.2.1)] ++ l.2.2.2 ++ b.2.2.2
      if b.1 ≠ 0 then
        { ret := -EIO_errno, config := { l.2.1 with cmdline_blacklist := b.2.1 },
          kernel := g.2.2.1, heap := b.2.2.1, log := log }
      else
        { ret := 0, config := { l.2.1 with cmdline_blacklist := b.2.1 },
          kernel := g.2.2.1, heap := b.2.2.1,
          log := log ++ [Diag.mk Level.inf (Msg.processed l.1)] }

/-- Sample values of the constants, used where the definitions are
evaluated on concrete inputs: two interfaces and 16-bit ids as in the
examples of the specification, small buffers. -/
def sample_params : Params where
  MAX_NET_IFACES := 2
  VID_PID_MAX := 65535
  CMDLINE_MAX := 64
  SIZEOF_syno_hw := 8
  SIZEOF_serial_no := 8
  SIZEOF_mac_address := 18
  MAX_BLACKLISTED_CMDLINE_TOKENS := 10
  NATIVE_SATA_DOM_SUPPORTED := false
  CMDLINE_KT_ELEVATOR := "elevator="
  CMDLINE_KT_LOGLEVEL := "loglevel="
  CMDLINE_KT_PK_BUFFER := "log_buf_len="
  CMDLINE_KT_EARLY_PK := "earlyprintk"
  KALLOC_EXIT_CODE := -12

/-! ## Notions used to state the properties -/

/-- Every scheduled allocation succeeds. -/
def heap_ok (heap : Heap) : Prop := ∀ b ∈ heap, b = true

/-- The text `p1,p2,...,pN` made of the given pieces. -/
def join_pieces : List CStr → CStr
  | [] => []
  | [p] => p
  | p :: q :: r => p ++ ',' :: join_pieces (q :: r)

/-- The comma-delimited pieces of a bulk list that are candidates for a slot:
all of them, apart from an empty fragment after the last comma. -/
def bulk_pieces (t : CStr) : List CStr :=
  if (split_on ',' t).getLast? = some [] then (split_on ',' t).dropLast else split_on ',' t

/-- The number written by the decimal digits at the start of a text, read
from the left and continuing from `acc`. -/
def dec_acc : CStr → Nat → Nat
  | [], acc => acc
  | c :: s, acc =>
    if 48 ≤ c.toNat ∧ c.toNat ≤ 57 then dec_acc s (acc * 10 + (c.toNat - 48)) else acc

/-- The number written by the decimal digits at the start of a text, 0 when
it starts with none. -/
def leading_decimal (v : CStr) : Nat := dec_acc v 0

/-- The module state after a sequence of `get_kernel_cmdline` calls, one for
each listed `maxlen`. -/
def get_calls (P : Params) (prov : Provider) : List Nat → Kernel → Kernel
  | [], K => K
  | m :: ms, K => get_calls P prov ms (get_kernel_cmdline P prov K [] m).2.2.1

/-- A number read off the bytes 0, 1 and 5 of a token; it is the position in
`matchers` of the only matcher that can recognize the token. -/
def token_tag (p : CStr) : Nat :=
  if char_at p 0 = 's' then
    if char_at p 1 = 'y' then (if char_at p 5 = 'h' then 0 else 7)
    else if char_at p 1 = 'n' then 1 else 2
  else if char_at p 0 = 'v' then 3
  else if char_at p 0 = 'p' then 4
  else if char_at p 0 = 'd' then 5
  else if char_at p 0 = 'm' then (if char_at p 1 = 'f' then 6 else 9)
  else 8

/-- A matcher recognizes a token when a call of it on the token, in some
state, returns true. -/
def recognizes (m : Matcher) (p : CStr) : Prop :=
  ∃ (config : runtime_config) (heap : Heap), (m config heap p).1 = true

/-- A matcher is inert where it does not recognize: a call that returns
false leaves the configuration and the allocator alone and logs nothing. -/
def inert (m : Matcher) : Prop :=
  ∀ (config : runtime_config) (heap : Heap) (p : CStr),
    (m config heap p).1 = false → m config heap p = (false, config, heap, [])

/-! ## Auxiliary facts -/

theorem kmalloc_ok {heap : Heap} (h : heap_ok heap) :
    (kmalloc heap).1 = true ∧ heap_ok (kmalloc heap).2 := by
  cases heap with
  | nil => exact ⟨rfl, h⟩
  | cons b rest =>
    refine ⟨h b (List.mem_cons_self _ _), ?_⟩
    intro x hx
    exact h x (List.mem_cons_of_mem _ hx)

theorem store_mac_ok (P : Params) (i : Nat) (src : CStr) (macs : List (Option CStr))
    {heap : Heap} (h : heap_ok heap) :
    store_mac P i src macs heap =
      (true, macs.set i (some (strscpy [] src P.SIZEOF_mac_address).1), (kmalloc heap).2,
        (if (strscpy [] src P.SIZEOF_mac_address).2 < 0 then
          [Diag.mk Level.wrn (Msg.mac_truncated (i + 1) (P.SIZEOF_mac_address - 1))] else []) ++
        [Diag.mk Level.dbg (Msg.mac_set (i + 1) (strscpy [] src P.SIZEOF_mac_address).1)]) := by
  have hk := (kmalloc_ok h).1
  unfold store_mac
  rcases hkm : kmalloc heap with ⟨b, heap1⟩
  rw [hkm] at hk
  simp only at hk
  subst hk
  rfl

theorem macs_bulk_heap_ok (P : Params) (ps : List CStr) :
    ∀ (i : Nat) (macs : List (Option CStr)) (heap : Heap), heap_ok heap →
      heap_ok (macs_bulk P ps i macs heap).2.1 := by
  induction ps with
  | nil => intro i macs heap h; exact h
  | cons t ts ih =>
    intro i macs heap h
    cases ts with
    | nil =>
      unfold macs_bulk
      split
      · rw [store_mac_ok P i t macs h]
        exact (kmalloc_ok h).2
      · exact h
    | cons t2 ts2 =>
      unfold macs_bulk
      split
      · rw [store_mac_ok P i t macs h]
        exact ih _ _ _ (kmalloc_ok h).2
      · exact h

theorem macs_first_free_heap_ok (P : Params) (src : CStr) (n : Nat) :
    ∀ (i : Nat) (macs : List (Option CStr)) (heap : Heap), heap_ok heap →
      heap_ok (macs_first_free P src n i macs heap).2.1 := by
  induction n with
  | zero => intro i macs heap h; exact h
  | succ n ih =>
    intro i macs heap h
    unfold macs_first_free
    split
    · exact ih _ _ _ h
    · rw [store_mac_ok P i src macs h]
      exact (kmalloc_ok h).2

theorem extract_netif_macs_heap_ok (P : Params) (macs : List (Option CStr)) (p : CStr)
    {heap : Heap} (h : heap_ok heap) : heap_ok (extract_netif_macs P macs heap p).2.2.1 := by
  unfold extract_netif_macs
  split
  · exact macs_bulk_heap_ok P _ _ _ _ h
  · split
    · exact h
    · exact macs_first_free_heap_ok P _ _ _ _ _ h

theorem first_match_heap_ok (ms : List Matcher)
    (hms : ∀ m ∈ ms, ∀ (c : runtime_config) (h : Heap) (p : CStr),
      heap_ok h → heap_ok (m c h p).2.2.1) :
    ∀ (c : runtime_config) (h : Heap) (p : CStr),
      heap_ok h → heap_ok (first_match ms c h p).2.2.1 := by
  induction ms with
  | nil => intro c h p hh; exact hh
  | cons m ms ih =>
    intro c h p hh
    have h1 := hms m (List.mem_cons_self _ _) c h p hh
    unfold first_match
    simp only
    split
    · exact h1
    · exact ih (fun m2 hm2 => hms m2 (List.mem_cons_of_mem _ hm2)) _ _ _ h1

theorem pipeline_step_heap_ok (P : Params) (c : runtime_config) (h : Heap) (p : CStr)
    (hh : heap_ok h) : heap_ok (pipeline_step P c h p).2.2.1 := by
  unfold pipeline_step
  apply first_match_heap_ok _ _ c h p hh
  intro m hm c2 h2 p2 hh2
  simp only [matchers, List.cons_append, List.nil_append, List.mem_cons, List.mem_singleton,
    List.not_mem_nil, or_false] at hm
  rcases hm with rfl | rfl | rfl | rfl | rfl | rfl | rfl | rfl | rfl | rfl | rfl
  · exact hh2
  · exact hh2
  · exact hh2
  · exact hh2
  · exact hh2
  · exact hh2
  · exact hh2
  · exact hh2
  · exact hh2
  · exact extract_netif_macs_heap_ok P _ _ hh2
  · exact hh2

theorem process_chunks_heap_ok (P : Params) (chunks : List CStr) :
    ∀ (n : Nat) (c : runtime_config) (h : Heap),
      heap_ok h → heap_ok (process_chunks P chunks n c h).2.2.1 := by
  induction chunks with
  | nil => intro n c h hh; exact hh
  | cons chunk rest ih =>
    intro n c h hh
    unfold process_chunks
    split
    · exact ih _ _ _ hh
    · exact ih _ _ _ (pipeline_step_heap_ok P c h chunk hh)

theorem add_blacklist_entries_ret (P : Params) (es : List (Nat × String)) :
    ∀ (bl : List (Option CStr)) (h : Heap),
      heap_ok h → (add_blacklist_entries P es bl h).1 = 0 := by
  induction es with
  | nil => intro bl h _; rfl
  | cons e rest ih =>
    intro bl h hh
    have hk := kmalloc_ok hh
    unfold add_blacklist_entries
    rcases hkm : kmalloc h with ⟨b, heap1⟩
    rw [hkm] at hk
    simp only at hk
    obtain ⟨hb, hh1⟩ := hk
    subst hb
    exact ih _ _ hh1

theorem matcher_flags (P : Params) (heap : Heap) (p : CStr) (macs : List (Option CStr))
    (bm : boot_media) (s : CStr) (id : Nat) (b : Bool) :
    (extract_hw P s p).1 = ensure_cmdline_param p CMDLINE_KT_HW ∧
    (extract_sn P s p).1 = ensure_cmdline_param p CMDLINE_KT_SN ∧
    (extract_boot_media_type bm p).1 = ensure_cmdline_param p CMDLINE_KT_SATADOM ∧
    (extract_vid P id p).1 = ensure_cmdline_param p CMDLINE_CT_VID ∧
    (extract_pid P id p).1 = ensure_cmdline_param p CMDLINE_CT_PID ∧
    (extract_dom_max_size bm p).1 = ensure_cmdline_param p CMDLINE_CT_DOM_SZMAX ∧
    (extract_mfg b p).1 = ensure_cmdline_token p CMDLINE_CT_MFG ∧
    (extract_port_thaw b p).1 = ensure_cmdline_param p CMDLINE_KT_THAW ∧
    (extract_netif_num id p).1 = ensure_cmdline_param p CMDLINE_KT_NETIF_NUM ∧
    (ensure_cmdline_param p CMDLINE_KT_MACS = true →
      (extract_netif_macs P macs heap p).1 = true) := by
  refine ⟨?_, ?_, ?_, ?_, ?_, ?_, ?_, ?_, ?_, ?_⟩
  · by_cases h : ensure_cmdline_param p CMDLINE_KT_HW = true
    · rw [h]; simp only [extract_hw, h, if_true]
    · rw [Bool.not_eq_true] at h; rw [h]; simp only [extract_hw, h]; rfl
  · by_cases h : ensure_cmdline_param p CMDLINE_KT_SN = true
    · rw [h]; simp only [extract_sn, h, if_true]
    · rw [Bool.not_eq_true] at h; rw [h]; simp only [extract_sn, h]; rfl
  · by_cases h : ensure_cmdline_param p CMDLINE_KT_SATADOM = true
    · rw [h]; simp only [extract_boot_media_type, h, if_true]; (repeat' split) <;> rfl
    · rw [Bool.not_eq_true] at h; rw [h]; simp only [extract_boot_media_type, h]; rfl
  · by_cases h : ensure_cmdline_param p CMDLINE_CT_VID = true
    · rw [h]; simp only [extract_vid, h, if_true]; (repeat' split) <;> rfl
    · rw [Bool.not_eq_true] at h; rw [h]; simp only [extract_vid, h]; rfl
  · by_cases h : ensure_cmdline_param p CMDLINE_CT_PID = true
    · rw [h]; simp only [extract_pid, h, if_true]; (repeat' split) <;> rfl
    · rw [Bool.not_eq_true] at h; rw [h]; simp only [extract_pid, h]; rfl
  · by_cases h : ensure_cmdline_param p CMDLINE_CT_DOM_SZMAX = true
    · rw [h]; simp only [extract_dom_max_size, h, if_true]; (repeat' split) <;> rfl
    · rw [Bool.not_eq_true] at h; rw [h]; simp only [extract_dom_max_size, h]; rfl
  · by_cases h : ensure_cmdline_token p CMDLINE_CT_MFG = true
    · rw [h]; simp only [extract_mfg, h, if_true]
    · rw [Bool.not_eq_true] at h; rw [h]; simp only [extract_mfg, h]; rfl
  · by_cases h : ensure_cmdline_param p CMDLINE_KT_THAW = true
    · rw [h]; simp only [extract_port_thaw, h, if_true]; (repeat' split) <;> rfl
    · rw [Bool.not_eq_true] at h; rw [h]; simp only [extract_port_thaw, h]; rfl
  · by_cases h : ensure_cmdline_param p CMDLINE_KT_NETIF_NUM = true
    · rw [h]; simp only [extract_netif_num, h, if_true]; (repeat' split) <;> rfl
    · rw [Bool.not_eq_true] at h; rw [h]; simp only [extract_netif_num, h]; rfl
  · intro h
    unfold extract_netif_macs
    unfold ensure_cmdline_param at h
    simp only [h, if_true]

/-- C1: whenever `get_kernel_cmdline` delivers a command line of positive
length and every allocation succeeds, `extract_config_from_cmdline` returns
0, whatever the tokens are; and each of the ten option matchers reports the
token as handled as soon as its key matches, whatever the value is. -/
theorem extract_config_from_cmdline_returns_zero (P : Params) (prov : Provider) (K : Kernel)
    (config : runtime_config) (heap : Heap) (hheap : heap_ok heap)
    (hline : 0 < (get_kernel_cmdline P prov K [] P.CMDLINE_MAX).1) :
    (extract_config_from_cmdline P prov K config heap).ret = 0 ∧
    ∀ (p : CStr) (macs : List (Option CStr)) (bm : boot_media) (s : CStr) (id : Nat) (b : Bool),
      (extract_hw P s p).1 = ensure_cmdline_param p CMDLINE_KT_HW ∧
      (extract_sn P s p).1 = ensure_cmdline_param p CMDLINE_KT_SN ∧
      (extract_boot_media_type bm p).1 = ensure_cmdline_param p CMDLINE_KT_SATADOM ∧
      (extract_vid P id p).1 = ensure_cmdline_param p CMDLINE_CT_VID ∧
      (extract_pid P id p).1 = ensure_cmdline_param p CMDLINE_CT_PID ∧
      (extract_dom_max_size bm p).1 = ensure_cmdline_param p CMDLINE_CT_DOM_SZMAX ∧
      (extract_mfg b p).1 = ensure_cmdline_token p CMDLINE_CT_MFG ∧
      (extract_port_thaw b p).1 = ensure_cmdline_param p CMDLINE_KT_THAW ∧
      (extract_netif_num id p).1 = ensure_cmdline_param p CMDLINE_KT_NETIF_NUM ∧
      (ensure_cmdline_param p CMDLINE_KT_MACS = true →
        (extract_netif_macs P macs heap p).1 = true) := by
  constructor
  · have hk := kmalloc_ok hheap
    unfold extract_config_from_cmdline
    rcases hkm : kmalloc heap with ⟨b, heap1⟩
    rw [hkm] at hk
    simp only at hk
    obtain ⟨hb, hh1⟩ := hk
    subst hb
    have hng : ¬ (get_kernel_cmdline P prov K [] P.CMDLINE_MAX).1 ≤ 0 := by omega
    simp only [hng, if_false]
    have hb0 := add_blacklist_entries_ret P (blacklist_entries P)
      (process_chunks P (split_on CMDLINE_SEP (get_kernel_cmdline P prov K [] P.CMDLINE_MAX).2.1)
        0 config heap1).2.1.cmdline_blacklist
      (process_chunks P (split_on CMDLINE_SEP (get_kernel_cmdline P prov K [] P.CMDLINE_MAX).2.1)
        0 config heap1).2.2.1
      (process_chunks_heap_ok P
        (split_on CMDLINE_SEP (get_kernel_cmdline P prov K [] P.CMDLINE_MAX).2.1)
        0 config heap1 hh1)
    unfold populate_cmdline_blacklist
    simp only [hb0, ne_eq, not_true_eq_false, if_false]
  · intro p macs bm s id b
    exact matcher_flags P heap p macs bm s id b

theorem extract_config_from_cmdline_returns_zero_witness :
    (extract_config_from_cmdline sample_params
      (fun _ _ => Fetch.written "vid=0x10000 netif_num=x satadom=7 foo".toList 36)
      (Kernel.mk [] 0) (default_config sample_params) []).ret = 0 :=
  (extract_config_from_cmdline_returns_zero sample_params
    (fun _ _ => Fetch.written "vid=0x10000 netif_num=x satadom=7 foo".toList 36)
    (Kernel.mk [] 0) (default_config sample_params) []
    (by intro b hb; cases hb) (by decide)).1

theorem char_eq_of_toNat {c d : Char} (h : c.toNat = d.toNat) : c = d := by
  rw [← Char.ofNat_toNat c, ← Char.ofNat_toNat d, h]

/-- C2, as stated, fails: on the token `netif_num=11` the field is set to 1
and the only diagnostic is a debug message, no error. -/
theorem extract_netif_num_two_digits :
    extract_netif_num 0 "netif_num=11".toList =
      (true, 1, [Diag.mk Level.dbg (Msg.netif_set 1)]) := by
  decide

/-- C2, amended: for every token `netif_num=<v>` only the first character
`c` of `v` decides. When `c` is not in '1'..'9' (an empty `v` included) the
field is unchanged, and an error is emitted unless `c` is '0', in which case
a warning is emitted instead; when `c` is in '1'..'9' the field is set to that
digit, whatever follows it. -/
theorem extract_netif_num_first_char (old : Nat) (v : CStr) :
    extract_netif_num old (CMDLINE_KT_NETIF_NUM.toList ++ v) =
      if char_at v 0 = '0' then (true, old, [Diag.mk Level.wrn Msg.netif_none])
      else if 49 ≤ (char_at v 0).toNat ∧ (char_at v 0).toNat ≤ 57 then
        (true, (char_at v 0).toNat - 48,
          [Diag.mk Level.dbg (Msg.netif_set (((char_at v 0).toNat : Int) - 48))])
      else (true, old, [Diag.mk Level.err (Msg.netif_invalid (char_val (char_at v 0) - 48))]) := by
  have hp : ensure_cmdline_param (CMDLINE_KT_NETIF_NUM.toList ++ v) CMDLINE_KT_NETIF_NUM = true :=
    rfl
  have hc : char_at (CMDLINE_KT_NETIF_NUM.toList ++ v) (strlen_static CMDLINE_KT_NETIF_NUM) =
    char_at v 0 := rfl
  simp only [extract_netif_num, hp, if_true, hc]
  generalize char_at v 0 = c
  by_cases h0 : c = '0'
  · subst h0
    simp only [if_true]
    rfl
  · have hn : c.toNat ≠ 48 := fun h => h0 (char_eq_of_toNat h)
    simp only [h0, if_false]
    unfold char_val
    by_cases hd : 49 ≤ c.toNat ∧ c.toNat ≤ 57
    · have h128 : c.toNat < 128 := by omega
      have e1 : ¬ ((c.toNat : Int) - 48 = 0) := by omega
      have e2 : ¬ ((c.toNat : Int) - 48 < 1 ∨ (c.toNat : Int) - 48 > 9) := by omega
      have e3 : ((c.toNat : Int) - 48).toNat = c.toNat - 48 := by omega
      simp only [h128, if_true, e1, if_false, e2, hd, and_self, e3]
    · simp only [hd, if_false]
      by_cases h128 : c.toNat < 128
      · have e1 : ¬ ((c.toNat : Int) - 48 = 0) := by omega
        have e2 : ((c.toNat : Int) - 48 < 1 ∨ (c.toNat : Int) - 48 > 9) := by omega
        simp only [h128, if_true, e1, if_false, e2]
      · have e1 : ¬ (((c.toNat % 128 : Nat) : Int) - 128 - 48 = 0) := by omega
        have e2 : (((c.toNat % 128 : Nat) : Int) - 128 - 48 < 1 ∨
          ((c.toNat % 128 : Nat) : Int) - 128 - 48 > 9) := by omega
        simp only [h128, if_false, e1, e2, if_true]

/-- C3: on the token `vid=-1` the value parses to -1, which is below the
valid range, and yet `extract_vid` overwrites a vendor id of 0 with 65535. -/
theorem extract_vid_negative_value :
    kstrtoll "-1".toList 0 = Except.ok (-1) ∧
    extract_vid sample_params 0 "vid=-1".toList =
      (true, 65535, [Diag.mk Level.dbg (Msg.vid_set 65535)]) := by
  decide

theorem split_on_ne_nil (sep : Char) (s : CStr) : split_on sep s ≠ [] := by
  induction s with
  | nil => simp [split_on]
  | cons c cs ih =>
    unfold split_on
    split
    · simp
    · split
      · simp
      · simp

theorem split_on_of_not_mem (sep : Char) (p : CStr) (h : sep ∉ p) : split_on sep p = [p] := by
  induction p with
  | nil => rfl
  | cons c cs ih =>
    have hc : c ≠ sep := fun e => h (e ▸ List.mem_cons_self _ _)
    have hcs : sep ∉ cs := fun e => h (List.mem_cons_of_mem _ e)
    unfold split_on
    rw [if_neg hc, ih hcs]

theorem split_on_append_sep (sep : Char) (p rest : CStr) (h : sep ∉ p) :
    split_on sep (p ++ sep :: rest) = p :: split_on sep rest := by
  induction p with
  | nil => simp [split_on]
  | cons c cs ih =>
    have hc : c ≠ sep := fun e => h (e ▸ List.mem_cons_self _ _)
    have hcs : sep ∉ cs := fun e => h (List.mem_cons_of_mem _ e)
    rw [List.cons_append, split_on, if_neg hc, ih hcs]

theorem split_on_join_pieces (pieces : List CStr) (hne : pieces ≠ [])
    (hp : ∀ p ∈ pieces, ',' ∉ p) : split_on ',' (join_pieces pieces) = pieces := by
  induction pieces with
  | nil => exact absurd rfl hne
  | cons p rest ih =>
    cases rest with
    | nil => exact split_on_of_not_mem _ _ (hp p (List.mem_cons_self _ _))
    | cons q r =>
      unfold join_pieces
      rw [split_on_append_sep _ _ _ (hp p (List.mem_cons_self _ _)),
        ih (by simp) (fun x hx => hp x (List.mem_cons_of_mem _ hx))]

theorem bulk_pieces_join_pieces (pieces : List CStr) (hne : pieces ≠ [])
    (hp : ∀ p ∈ pieces, p ≠ [] ∧ ',' ∉ p) : bulk_pieces (join_pieces pieces) = pieces := by
  unfold bulk_pieces
  rw [split_on_join_pieces pieces hne (fun p h => (hp p h).2)]
  have : pieces.getLast? ≠ some [] := by
    intro h
    have hm := List.mem_of_getLast?_eq_some h
    exact (hp _ hm).1 rfl
  rw [if_neg this]

theorem strscpy_nil_fst (src : CStr) (n : Nat) : (strscpy [] src n).1 = src.take (n - 1) := by
  unfold strscpy
  by_cases hn : n = 0
  · subst hn
    simp
  · by_cases hl : src.length < n
    · simp only [hn, if_false, hl, if_true]
      rw [List.take_of_length_le (by omega)]
    · simp only [hn, if_false, hl]

theorem set_length_append {α : Type} (pre suf : List α) (a x : α) :
    (pre ++ a :: suf).set pre.length x = pre ++ x :: suf := by
  induction pre with
  | nil => rfl
  | cons b pre ih => simp [ih]

theorem bulk_candidates_cons (t t2 : CStr) (ts : List CStr) :
    (if (t :: t2 :: ts).getLast? = some [] then (t :: t2 :: ts).dropLast else t :: t2 :: ts) =
      t :: (if (t2 :: ts).getLast? = some [] then (t2 :: ts).dropLast else t2 :: ts) := by
  rw [List.getLast?_cons_cons]
  split <;> simp

theorem macs_bulk_slots (P : Params) (ps : List CStr) :
    ∀ (pre suf : List (Option CStr)) (heap : Heap), heap_ok heap → ps ≠ [] →
      pre.length + suf.length = P.MAX_NET_IFACES →
      (macs_bulk P ps pre.length (pre ++ suf) heap).1 =
        pre ++ (((if ps.getLast? = some [] then ps.dropLast else ps).take suf.length).map
          fun p => some (p.take (P.SIZEOF_mac_address - 1))) ++
        suf.drop (if ps.getLast? = some [] then ps.dropLast else ps).length := by
  induction ps with
  | nil => intro pre suf heap _ h; exact absurd rfl h
  | cons t ts ih =>
    intro pre suf heap hh _ hlen
    cases ts with
    | nil =>
      unfold macs_bulk
      cases suf with
      | nil =>
        have : ¬ (t ≠ [] ∧ pre.length < P.MAX_NET_IFACES) := by
          simp only [List.length_nil] at hlen
          omega
        rw [if_neg this]
        simp
      | cons a suf =>
        by_cases ht : t = []
        · subst ht
          simp
        · have : t ≠ [] ∧ pre.length < P.MAX_NET_IFACES := by
            refine ⟨ht, ?_⟩
            simp only [List.length_cons] at hlen
            omega
          rw [if_pos this, store_mac_ok P _ t _ hh, strscpy_nil_fst]
          simp [set_length_append, ht]
    | cons t2 ts2 =>
      rw [bulk_candidates_cons]
      unfold macs_bulk
      cases suf with
      | nil =>
        have : ¬ (pre.length < P.MAX_NET_IFACES) := by
          simp only [List.length_nil] at hlen
          omega
        rw [if_neg this]
        simp
      | cons a suf =>
        have : pre.length < P.MAX_NET_IFACES := by
          simp only [List.length_cons] at hlen
          omega
        rw [if_pos this, store_mac_ok P _ t _ hh, strscpy_nil_fst]
        simp only [set_length_append]
        have hlen2 : (pre ++ [some (t.take (P.SIZEOF_mac_address - 1))]).length + suf.length =
            P.MAX_NET_IFACES := by
          simp only [List.length_append, List.length_cons, List.length_nil] at hlen
          simp only [List.length_append, List.length_cons, List.length_nil]
          omega
        have h2 := ih (pre ++ [some (t.take (P.SIZEOF_mac_address - 1))]) suf (kmalloc heap).2
          (kmalloc_ok hh).2 (by simp) hlen2
        simp only [List.length_append, List.length_singleton, List.append_assoc,
          List.singleton_append] at h2
        rw [h2]
        simp

/-- C4, as stated, fails: with slot 0 already holding `A`, the token `macs=B`
puts `B` in slot 0, not in the next empty slot, and `A` is gone. -/
theorem extract_netif_macs_bulk_overwrites :
    extract_netif_macs sample_params [some "A".toList, none] [] "macs=B".toList =
      (true, [some "B".toList, none], [], [Diag.mk Level.dbg (Msg.mac_set 1 "B".toList)]) := by
  decide

/-- C4, amended: for every state of the MAC list and every token
`macs=<list>`, with allocations succeeding, the comma-delimited pieces (an
empty fragment after the last comma not counted) are written to slots 0, 1,
2, ... in order, up to the capacity, whether or not those slots were
populated before, each cut to capacity-1 characters; the slots from the
number of pieces on are unchanged. -/
theorem extract_netif_macs_bulk_positions (P : Params) (macs : List (Option CStr))
    (heap : Heap) (t : CStr) (hheap : heap_ok heap) (hlen : macs.length = P.MAX_NET_IFACES) :
    (extract_netif_macs P macs heap (CMDLINE_KT_MACS.toList ++ t)).1 = true ∧
    (extract_netif_macs P macs heap (CMDLINE_KT_MACS.toList ++ t)).2.1 =
      ((bulk_pieces t).take P.MAX_NET_IFACES).map
        (fun p => some (p.take (P.SIZEOF_mac_address - 1))) ++
      macs.drop (bulk_pieces t).length := by
  have hp : strncmp_eq (CMDLINE_KT_MACS.toList ++ t) CMDLINE_KT_MACS
      (strlen_static CMDLINE_KT_MACS) = true := rfl
  have ha : advance (CMDLINE_KT_MACS.toList ++ t) (strlen_static CMDLINE_KT_MACS) = t := rfl
  simp only [extract_netif_macs, hp, if_true, ha, true_and]
  have h := macs_bulk_slots P (split_on ',' t) [] macs heap hheap (split_on_ne_nil _ _)
    (by simpa using hlen)
  simp only [List.length_nil, List.nil_append] at h
  rw [h, hlen]
  rfl

theorem extract_netif_macs_bulk_positions_witness :
    (extract_netif_macs sample_params [some "A".toList, some "B".toList] []
      (CMDLINE_KT_MACS.toList ++ "C,".toList)).2.1 = [some "C".toList, some "B".toList] := by
  rw [(extract_netif_macs_bulk_positions sample_params [some "A".toList, some "B".toList] []
    "C,".toList (by intro b hb; cases hb) rfl).2]
  decide

/-- C5: for a token `macs=<p1>,...,<pN>` with N >= 1 non-empty comma-free
pieces, processed on a MAC list whose `MAX_NET_IFACES` slots are all empty
and with allocations succeeding: afterwards slots 0 .. min(N,
MAX_NET_IFACES)-1 hold the pieces p1, p2, ... in order, each cut to
capacity-1 characters, and every other slot is still empty. -/
theorem extract_netif_macs_bulk_on_empty (P : Params) (pieces : List CStr) (heap : Heap)
    (hheap : heap_ok heap) (hne : pieces ≠ [])
    (hp : ∀ p ∈ pieces, p ≠ [] ∧ ',' ∉ p) :
    (extract_netif_macs P (List.replicate P.MAX_NET_IFACES none) heap
      (CMDLINE_KT_MACS.toList ++ join_pieces pieces)).2.1 =
      (pieces.take P.MAX_NET_IFACES).map (fun p => some (p.take (P.SIZEOF_mac_address - 1))) ++
      List.replicate (P.MAX_NET_IFACES - min pieces.length P.MAX_NET_IFACES) none := by
  have hpre : strncmp_eq (CMDLINE_KT_MACS.toList ++ join_pieces pieces) CMDLINE_KT_MACS
      (strlen_static CMDLINE_KT_MACS) = true := rfl
  have ha : advance (CMDLINE_KT_MACS.toList ++ join_pieces pieces)
      (strlen_static CMDLINE_KT_MACS) = join_pieces pieces := rfl
  simp only [extract_netif_macs, hpre, if_true, ha]
  have h := macs_bulk_slots P (split_on ',' (join_pieces pieces)) []
    (List.replicate P.MAX_NET_IFACES none) heap hheap (split_on_ne_nil _ _) (by simp)
  have hb := bulk_pieces_join_pieces pieces hne hp
  unfold bulk_pieces at hb
  simp only [List.length_nil, List.nil_append, hb, List.length_replicate,
    List.drop_replicate] at h
  rw [h]
  congr 2
  omega

theorem extract_netif_macs_bulk_on_empty_witness :
    (extract_netif_macs sample_params (List.replicate sample_params.MAX_NET_IFACES none) []
      (CMDLINE_KT_MACS.toList ++ join_pieces ["AA".toList, "BB".toList, "CC".toList])).2.1 =
      [some "AA".toList, some "BB".toList] := by
  rw [extract_netif_macs_bulk_on_empty sample_params ["AA".toList, "BB".toList, "CC".toList] []
    (by intro b hb; cases hb) (by decide) (by decide)]
  decide

/-- C6: on the token
`macs=AA:AA:AA:AA:AA:AA,BB:BB:BB:BB:BB:BB,CC:CC:CC:CC:CC:CC` with a capacity
of two and an empty list, two slots are filled and the only diagnostics are
the two debug messages: no error reports the dropped third piece. -/
theorem extract_netif_macs_bulk_surplus_silent :
    extract_netif_macs sample_params [none, none] []
      "macs=AA:AA:AA:AA:AA:AA,BB:BB:BB:BB:BB:BB,CC:CC:CC:CC:CC:CC".toList =
      (true, [some "AA:AA:AA:AA:AA:AA".toList, some "BB:BB:BB:BB:BB:BB".toList], [],
        [Diag.mk Level.dbg (Msg.mac_set 1 "AA:AA:AA:AA:AA:AA".toList),
          Diag.mk Level.dbg (Msg.mac_set 2 "BB:BB:BB:BB:BB:BB".toList)]) := by
  decide

theorem strncmp_eq_false_of_ne (p : CStr) (lit : String) (n i : Nat) (hi : i < n)
    (h : char_at p i ≠ char_at lit.toList i) : strncmp_eq p lit n = false := by
  unfold strncmp_eq
  rw [List.all_eq_false]
  exact ⟨i, List.mem_range.mpr hi, by simpa using h⟩

theorem macs_first_free_slots (P : Params) (src : CStr) (suf : List (Option CStr)) :
    ∀ (pre : List (Option CStr)) (heap : Heap), heap_ok heap →
      macs_first_free P src suf.length pre.length (pre ++ suf) heap =
        if suf.all Option.isSome then
          (pre ++ suf, heap, [Diag.mk Level.err (Msg.mac_too_many P.MAX_NET_IFACES)])
        else
          (pre ++ suf.takeWhile Option.isSome ++
              some (src.take (P.SIZEOF_mac_address - 1)) ::
                (suf.dropWhile Option.isSome).drop 1,
            (kmalloc heap).2,
            (if (strscpy [] src P.SIZEOF_mac_address).2 < 0 then
              [Diag.mk Level.wrn (Msg.mac_truncated
                (pre.length + (suf.takeWhile Option.isSome).length + 1)
                (P.SIZEOF_mac_address - 1))] else []) ++
            [Diag.mk Level.dbg (Msg.mac_set
              (pre.length + (suf.takeWhile Option.isSome).length + 1)
              (src.take (P.SIZEOF_mac_address - 1)))]) := by
  induction suf with
  | nil => intro pre heap _; rfl
  | cons a suf ih =>
    intro pre heap hh
    have hget : (pre ++ a :: suf).getD pre.length none = a := by
      rw [List.getD_eq_getElem?_getD, List.getElem?_append_right (le_refl _)]
      simp
    rw [List.length_cons, macs_first_free, hget]
    cases a with
    | none =>
      simp only [store_mac_ok P _ src _ hh, set_length_append, strscpy_nil_fst]
      simp
    | some v =>
      have h2 := ih (pre ++ [some v]) heap hh
      simp only [List.length_append, List.length_singleton, List.append_assoc,
        List.singleton_append] at h2
      simp only [h2]
      simp [Nat.add_assoc, Nat.add_comm 1]

theorem isSome_prefix_facts (filled rest : List (Option CStr)) (h : ∀ s ∈ filled, s ≠ none) :
    (filled ++ none :: rest).all Option.isSome = false ∧
    (filled ++ none :: rest).takeWhile Option.isSome = filled ∧
    (filled ++ none :: rest).dropWhile Option.isSome = none :: rest := by
  induction filled with
  | nil => simp
  | cons a filled ih =>
    have ha : a ≠ none := h a (List.mem_cons_self _ _)
    have ih2 := ih (fun s hs => h s (List.mem_cons_of_mem _ hs))
    cases a with
    | none => exact absurd rfl ha
    | some v =>
      obtain ⟨h1, h2, h3⟩ := ih2
      refine ⟨?_, ?_, ?_⟩
      · simp [h1]
      · simp [List.takeWhile, h2]
      · simp [List.dropWhile, h3]

theorem all_isSome_of_ne_none (macs : List (Option CStr)) (h : ∀ s ∈ macs, s ≠ none) :
    macs.all Option.isSome = true := by
  rw [List.all_eq_true]
  intro s hs
  cases s with
  | none => exact absurd rfl (h _ hs)
  | some v => rfl

theorem extract_netif_macs_indexed_eq (P : Params) (d : Char) (addr : CStr)
    (macs : List (Option CStr)) (heap : Heap)
    (hd : 49 ≤ d.toNat ∧ d.toNat ≤ 57 ∧ d.toNat ≤ 48 + P.MAX_NET_IFACES) :
    extract_netif_macs P macs heap ('m' :: 'a' :: 'c' :: d :: '=' :: addr) =
      (true, macs_first_free P addr P.MAX_NET_IFACES 0 macs heap) := by
  have hs : d ≠ 's' := by
    intro e
    rw [e] at hd
    have : ('s' : Char).toNat = 115 := rfl
    omega
  have h1 : strncmp_eq ('m' :: 'a' :: 'c' :: d :: '=' :: addr) CMDLINE_KT_MACS
      (strlen_static CMDLINE_KT_MACS) = false :=
    strncmp_eq_false_of_ne _ _ _ 3 (by decide) hs
  have h2 : strncmp_eq ('m' :: 'a' :: 'c' :: d :: '=' :: addr) "mac" 3 = true := rfl
  have h3 : char_at ('m' :: 'a' :: 'c' :: d :: '=' :: addr) 4 = '=' := rfl
  have h4 : char_at ('m' :: 'a' :: 'c' :: d :: '=' :: addr) 3 = d := rfl
  have h5 : advance ('m' :: 'a' :: 'c' :: d :: '=' :: addr) (strlen_static CMDLINE_KT_MAC1) =
      addr := rfl
  have h6 : char_val d = (d.toNat : Int) := by
    unfold char_val
    rw [if_pos (by omega)]
  have h7 : ¬ ((d.toNat : Int) < 49) := by omega
  have h8 : ¬ ((d.toNat : Int) > 49 + ((P.MAX_NET_IFACES : Int) - 1)) := by omega
  simp [extract_netif_macs, h1, h2, h3, h4, h5, h6, h7, h8]

theorem extract_netif_macs_first_empty (P : Params) (d : Char) (addr : CStr)
    (filled rest : List (Option CStr)) (heap : Heap) (hheap : heap_ok heap)
    (hlen : (filled ++ none :: rest).length = P.MAX_NET_IFACES)
    (hd : 49 ≤ d.toNat ∧ d.toNat ≤ 57 ∧ d.toNat ≤ 48 + P.MAX_NET_IFACES)
    (hf : ∀ s ∈ filled, s ≠ none) :
    (extract_netif_macs P (filled ++ none :: rest) heap
        ('m' :: 'a' :: 'c' :: d :: '=' :: addr)).1 = true ∧
    (extract_netif_macs P (filled ++ none :: rest) heap
        ('m' :: 'a' :: 'c' :: d :: '=' :: addr)).2.1 =
      filled ++ some (addr.take (P.SIZEOF_mac_address - 1)) :: rest ∧
    (extract_netif_macs P (filled ++ none :: rest) heap
        ('m' :: 'a' :: 'c' :: d :: '=' :: addr)).2.2.1 = (kmalloc heap).2 := by
  rw [extract_netif_macs_indexed_eq P d addr _ heap hd]
  have h := macs_first_free_slots P addr (filled ++ none :: rest) [] heap hheap
  simp only [List.nil_append, hlen] at h
  obtain ⟨f1, f2, f3⟩ := isSome_prefix_facts filled rest hf
  rw [List.length_nil] at h
  rw [h, f1, f2, f3]
  simp

/-- C7: for a token `mac<d>=<addr>` with a digit `d` in [1, MAX_NET_IFACES],
on a MAC list of `MAX_NET_IFACES` slots and with the allocation succeeding:
if some slot is empty, the address, cut to capacity-1 characters, is stored
in the lowest-indexed empty slot, whatever `d` is, and every other slot is
unchanged; if no slot is empty, the list is unchanged and the only
diagnostic is an error naming `MAX_NET_IFACES`; the token is handled in
both cases. In particular, with at least three slots, `mac1=A` followed by
`mac3=B` on an empty list fills slot 0 with `A` and slot 1 with `B`. -/
theorem extract_netif_macs_indexed (P : Params) (d : Char) (addr : CStr)
    (macs : List (Option CStr)) (heap : Heap) (hheap : heap_ok heap)
    (hlen : macs.length = P.MAX_NET_IFACES)
    (hd : 49 ≤ d.toNat ∧ d.toNat ≤ 57 ∧ d.toNat ≤ 48 + P.MAX_NET_IFACES) :
    (∀ (filled rest : List (Option CStr)), macs = filled ++ none :: rest →
      (∀ s ∈ filled, s ≠ none) →
      (extract_netif_macs P macs heap ('m' :: 'a' :: 'c' :: d :: '=' :: addr)).1 = true ∧
      (extract_netif_macs P macs heap ('m' :: 'a' :: 'c' :: d :: '=' :: addr)).2.1 =
        filled ++ some (addr.take (P.SIZEOF_mac_address - 1)) :: rest) ∧
    ((∀ s ∈ macs, s ≠ none) →
      extract_netif_macs P macs heap ('m' :: 'a' :: 'c' :: d :: '=' :: addr) =
        (true, macs, heap, [Diag.mk Level.err (Msg.mac_too_many P.MAX_NET_IFACES)])) ∧
    (3 ≤ P.MAX_NET_IFACES → ∀ (A B : CStr),
      (extract_netif_macs P
        (extract_netif_macs P (List.replicate P.MAX_NET_IFACES none) heap
          ("mac1=".toList ++ A)).2.1
        (extract_netif_macs P (List.replicate P.MAX_NET_IFACES none) heap
          ("mac1=".toList ++ A)).2.2.1
        ("mac3=".toList ++ B)).2.1 =
      some (A.take (P.SIZEOF_mac_address - 1)) :: some (B.take (P.SIZEOF_mac_address - 1)) ::
        List.replicate (P.MAX_NET_IFACES - 2) none) := by
  refine ⟨?_, ?_, ?_⟩
  · intro filled rest hm hf
    subst hm
    have h := extract_netif_macs_first_empty P d addr filled rest heap hheap hlen hd hf
    exact ⟨h.1, h.2.1⟩
  · intro hall
    rw [extract_netif_macs_indexed_eq P d addr macs heap hd]
    have h := macs_first_free_slots P addr macs [] heap hheap
    simp only [List.length_nil, List.nil_append, hlen] at h
    rw [h, all_isSome_of_ne_none macs hall]
    simp
  · intro h3 A B
    have e1 : ("mac1=".toList ++ A) = 'm' :: 'a' :: 'c' :: '1' :: '=' :: A := rfl
    have e3 : ("mac3=".toList ++ B) = 'm' :: 'a' :: 'c' :: '3' :: '=' :: B := rfl
    have t1 : ('1' : Char).toNat = 49 := rfl
    have t3 : ('3' : Char).toNat = 51 := rfl
    have hr : List.replicate P.MAX_NET_IFACES (none : Option CStr) =
        [] ++ none :: ([] ++ none :: List.replicate (P.MAX_NET_IFACES - 2) none) := by
      obtain ⟨k, hk⟩ : ∃ k, P.MAX_NET_IFACES = k + 2 := ⟨P.MAX_NET_IFACES - 2, by omega⟩
      rw [hk]
      rfl
    have hl : ([] ++ none :: ([] ++ none ::
        List.replicate (P.MAX_NET_IFACES - 2) (none : Option CStr))).length =
        P.MAX_NET_IFACES := by
      rw [← hr, List.length_replicate]
    rw [e1, e3, hr]
    have g1 := extract_netif_macs_first_empty P '1' A []
      ([] ++ none :: List.replicate (P.MAX_NET_IFACES - 2) none) heap hheap hl (by omega)
      (by intro s hs; cases hs)
    rw [g1.2.1, g1.2.2]
    have g2 := extract_netif_macs_first_empty P '3' B [some (A.take (P.SIZEOF_mac_address - 1))]
      (List.replicate (P.MAX_NET_IFACES - 2) none) (kmalloc heap).2 (kmalloc_ok hheap).2
      (by simpa using hl) (by omega)
      (by intro s hs; rw [List.mem_singleton] at hs; rw [hs]; exact Option.some_ne_none _)
    exact g2.2.1

theorem extract_netif_macs_indexed_witness :
    extract_netif_macs sample_params [some "A".toList, some "B".toList] []
        ('m' :: 'a' :: 'c' :: '2' :: '=' :: "C".toList) =
      (true, [some "A".toList, some "B".toList], [],
        [Diag.mk Level.err (Msg.mac_too_many sample_params.MAX_NET_IFACES)]) ∧
    (extract_netif_macs sample_params [some "A".toList, none] []
        ('m' :: 'a' :: 'c' :: '2' :: '=' :: "C".toList)).2.1 =
      [some "A".toList] ++ some ("C".toList.take (sample_params.SIZEOF_mac_address - 1)) :: [] ∧
    (extract_netif_macs { sample_params with MAX_NET_IFACES := 4 }
        (extract_netif_macs { sample_params with MAX_NET_IFACES := 4 }
          (List.replicate 4 none) [] ("mac1=".toList ++ "A".toList)).2.1
        (extract_netif_macs { sample_params with MAX_NET_IFACES := 4 }
          (List.replicate 4 none) [] ("mac1=".toList ++ "A".toList)).2.2.1
        ("mac3=".toList ++ "B".toList)).2.1 =
      [some "A".toList, some "B".toList, none, none] :=
  ⟨(extract_netif_macs_indexed sample_params '2' "C".toList [some "A".toList, some "B".toList] []
      (by intro b hb; cases hb) rfl (by decide)).2.1 (by decide),
    ((extract_netif_macs_indexed sample_params '2' "C".toList [some "A".toList, none] []
      (by intro b hb; cases hb) rfl (by decide)).1 [some "A".toList] [] rfl (by decide)).2,
    (extract_netif_macs_indexed { sample_params with MAX_NET_IFACES := 4 } '2' "C".toList
      (List.replicate 4 none) [] (by intro b hb; cases hb) rfl (by decide)).2.2 (by decide)
      "A".toList "B".toList⟩

theorem get_kernel_cmdline_cached (P : Params) (prov : Provider) (K : Kernel) (out : CStr)
    (maxlen : Nat) (h : K.cmdline_cache ≠ []) :
    get_kernel_cmdline P prov K out maxlen =
      ((strscpy out K.cmdline_cache (if maxlen > P.CMDLINE_MAX then P.CMDLINE_MAX else maxlen)).2,
        (strscpy out K.cmdline_cache (if maxlen > P.CMDLINE_MAX then P.CMDLINE_MAX else maxlen)).1,
        K, []) := by
  simp [get_kernel_cmdline, h]

theorem get_calls_cached (P : Params) (prov : Provider) (ms : List Nat) :
    ∀ (K : Kernel), K.cmdline_cache ≠ [] → get_calls P prov ms K = K := by
  induction ms with
  | nil => intro K _; rfl
  | cons m ms ih =>
    intro K h
    rw [get_calls, get_kernel_cmdline_cached P prov K [] m h]
    exact ih K h

/-- C8, as stated, fails: when the provider succeeds but the line it wrote is
empty, the first call fetches successfully and the second call invokes the
provider again. -/
theorem get_kernel_cmdline_refetches_empty_line :
    (extract_kernel_cmdline sample_params (fun _ _ => Fetch.written [] 0) (Kernel.mk [] 0)).1 = 0 ∧
    (get_calls sample_params (fun _ _ => Fetch.written [] 0) [16] (Kernel.mk [] 0)) =
      Kernel.mk [] 1 ∧
    (get_calls sample_params (fun _ _ => Fetch.written [] 0) [16, 16] (Kernel.mk [] 0)) =
      Kernel.mk [] 2 := by
  decide

/-- C8, amended: in every sequence of `get_kernel_cmdline` calls, once the
cache holds a non-empty line, as it does after a call that fetched a
non-empty line from the provider, every later call returns the cached value
without invoking the provider (the state, the count of provider calls
included, never changes again); after a failed fetch the cache is still empty
and the next call invokes the provider again. -/
theorem get_kernel_cmdline_fetch_once (P : Params) (prov : Provider) (K : Kernel) :
    (K.cmdline_cache ≠ [] → ∀ (out : CStr) (maxlen : Nat) (later : List Nat),
      (get_kernel_cmdline P prov K out maxlen).2.2.1 = K ∧
      (get_kernel_cmdline P prov K out maxlen).1 =
        (strscpy out K.cmdline_cache
          (if maxlen > P.CMDLINE_MAX then P.CMDLINE_MAX else maxlen)).2 ∧
      get_calls P prov later K = K) ∧
    (K.cmdline_cache = [] → ∀ (text : CStr) (count : Nat) (out : CStr) (maxlen : Nat),
      prov K.proc_show_calls P.CMDLINE_MAX = Fetch.written text count →
      buffer_cstr P.CMDLINE_MAX text ≠ [] → ∀ (later : List Nat),
      get_calls P prov later (get_kernel_cmdline P prov K out maxlen).2.2.1 =
        Kernel.mk (buffer_cstr P.CMDLINE_MAX text) (K.proc_show_calls + 1)) ∧
    (K.cmdline_cache = [] → ∀ (rc : Int) (out out2 : CStr) (maxlen maxlen2 : Nat),
      prov K.proc_show_calls P.CMDLINE_MAX = Fetch.error rc → rc ≠ 0 →
      (get_kernel_cmdline P prov K out maxlen).1 = rc ∧
      (get_kernel_cmdline P prov K out maxlen).2.2.1 = Kernel.mk [] (K.proc_show_calls + 1) ∧
      (get_kernel_cmdline P prov (get_kernel_cmdline P prov K out maxlen).2.2.1
        out2 maxlen2).2.2.1.proc_show_calls = K.proc_show_calls + 2) := by
  refine ⟨?_, ?_, ?_⟩
  · intro h out maxlen later
    rw [get_kernel_cmdline_cached P prov K out maxlen h]
    exact ⟨rfl, rfl, get_calls_cached P prov later K h⟩
  · intro h text count out maxlen hp hne later
    have e : (get_kernel_cmdline P prov K out maxlen).2.2.1 =
        Kernel.mk (buffer_cstr P.CMDLINE_MAX text) (K.proc_show_calls + 1) := by
      simp [get_kernel_cmdline, h, extract_kernel_cmdline, hp]
    rw [e]
    exact get_calls_cached P prov later _ hne
  · intro h rc out out2 maxlen maxlen2 hp hrc
    have e : get_kernel_cmdline P prov K out maxlen =
        (rc, out, Kernel.mk [] (K.proc_show_calls + 1),
          [Diag.mk Level.err Msg.cmdline_failed]) := by
      simp [get_kernel_cmdline, h, extract_kernel_cmdline, hp, hrc]
    rw [e]
    refine ⟨rfl, rfl, ?_⟩
    simp only [get_kernel_cmdline, extract_kernel_cmdline, if_true]
    cases prov (K.proc_show_calls + 1) P.CMDLINE_MAX with
    | error rc2 =>
      by_cases h2 : rc2 = 0
      · simp [h2]
      · simp [h2]
    | written t c => simp

theorem get_kernel_cmdline_fetch_once_witness :
    get_calls sample_params (fun _ _ => Fetch.written "mfg".toList 3) [4, 8, 100]
      (get_kernel_cmdline sample_params (fun _ _ => Fetch.written "mfg".toList 3)
        (Kernel.mk [] 0) [] 16).2.2.1 =
      Kernel.mk (buffer_cstr sample_params.CMDLINE_MAX "mfg".toList) (0 + 1) :=
  (get_kernel_cmdline_fetch_once sample_params (fun _ _ => Fetch.written "mfg".toList 3)
    (Kernel.mk [] 0)).2.1 rfl "mfg".toList 3 [] 16 rfl (by decide) [4, 8, 100]

/-- C9: with the line `a` in the cache and room for ten bytes, the call
succeeds, copies the whole line and returns 1, the number of characters
copied, not 0. -/
theorem get_kernel_cmdline_returns_length :
    get_kernel_cmdline sample_params (fun _ _ => Fetch.error (-5)) (Kernel.mk "a".toList 1) [] 10 =
      (1, "a".toList, Kernel.mk "a".toList 1, []) := by
  decide

theorem strscpy_fst (dst src : CStr) (n : Nat) (h : 0 < n) :
    (strscpy dst src n).1 = src.take (min src.length (n - 1)) := by
  unfold strscpy
  have hn : n ≠ 0 := by omega
  by_cases hl : src.length < n
  · simp only [hn, if_false, hl, if_true]
    rw [List.take_of_length_le]
    exact Nat.le_min.mpr ⟨le_refl _, by omega⟩
  · simp only [hn, if_false, hl]
    congr 1
    omega

theorem strscpy_snd_neg (dst src : CStr) (n : Nat) (h : 0 < n) :
    (strscpy dst src n).2 < 0 ↔ src.length > n - 1 := by
  unfold strscpy
  have hn : n ≠ 0 := by omega
  by_cases hl : src.length < n
  · simp only [hn, if_false, hl, if_true]
    constructor
    · intro h1; omega
    · intro h1; omega
  · simp only [hn, if_false, hl]
    constructor
    · intro _; omega
    · intro _; decide

/-- C10: for every token `syno_hw_version=<text>`, with C the capacity of the
hardware model field and C > 0: after `extract_hw` the field holds exactly
the first min(len(text), C-1) characters of `text`, which with the terminator
fit in the C bytes, and the truncation warning is emitted exactly when
len(text) > C-1; the same holds for `sn=<text>`, `extract_sn` and the serial
number with its own capacity. -/
theorem extract_hw_sn_bounded_copy (P : Params) (old text : CStr) :
    (0 < P.SIZEOF_syno_hw →
      extract_hw P old (CMDLINE_KT_HW.toList ++ text) =
        (true, text.take (min text.length (P.SIZEOF_syno_hw - 1)),
          (if text.length > P.SIZEOF_syno_hw - 1 then
            [Diag.mk Level.wrn (Msg.hw_truncated (P.SIZEOF_syno_hw - 1))] else []) ++
          [Diag.mk Level.dbg (Msg.hw_set (text.take (min text.length (P.SIZEOF_syno_hw - 1))))]) ∧
      (text.take (min text.length (P.SIZEOF_syno_hw - 1))).length + 1 ≤ P.SIZEOF_syno_hw) ∧
    (0 < P.SIZEOF_serial_no →
      extract_sn P old (CMDLINE_KT_SN.toList ++ text) =
        (true, text.take (min text.length (P.SIZEOF_serial_no - 1)),
          (if text.length > P.SIZEOF_serial_no - 1 then
            [Diag.mk Level.wrn (Msg.sn_truncated (P.SIZEOF_serial_no - 1))] else []) ++
          [Diag.mk Level.dbg (Msg.sn_set (text.take (min text.length (P.SIZEOF_serial_no - 1))))]) ∧
      (text.take (min text.length (P.SIZEOF_serial_no - 1))).length + 1 ≤ P.SIZEOF_serial_no) := by
  constructor
  · intro h
    constructor
    · have hp : ensure_cmdline_param (CMDLINE_KT_HW.toList ++ text) CMDLINE_KT_HW = true := rfl
      have ha : advance (CMDLINE_KT_HW.toList ++ text) (strlen_static CMDLINE_KT_HW) = text := rfl
      unfold extract_hw
      simp only [hp, if_true, ha, strscpy_fst old text _ h, strscpy_snd_neg old text _ h]
    · rw [List.length_take]
      have := Nat.min_le_right text.length (P.SIZEOF_syno_hw - 1)
      omega
  · intro h
    constructor
    · have hp : ensure_cmdline_param (CMDLINE_KT_SN.toList ++ text) CMDLINE_KT_SN = true := rfl
      have ha : advance (CMDLINE_KT_SN.toList ++ text) (strlen_static CMDLINE_KT_SN) = text := rfl
      unfold extract_sn
      simp only [hp, if_true, ha, strscpy_fst old text _ h, strscpy_snd_neg old text _ h]
    · rw [List.length_take]
      have := Nat.min_le_right text.length (P.SIZEOF_serial_no - 1)
      omega

theorem extract_hw_sn_bounded_copy_witness :
    (extract_hw sample_params [] (CMDLINE_KT_HW.toList ++ "DS3617xs+".toList)).2.1 = "DS3617x".toList ∧
    (extract_sn sample_params [] (CMDLINE_KT_SN.toList ++ "1234".toList)).2.1 = "1234".toList := by
  constructor
  · rw [((extract_hw_sn_bounded_copy sample_params [] "DS3617xs+".toList).1 (by decide)).1]
    decide
  · rw [((extract_hw_sn_bounded_copy sample_params [] "1234".toList).2 (by decide)).1]
    decide

/-- C11: on the token `syno_port_thaw=2` the character after `=` is neither
'0' nor '1', and yet no error is logged: the field is left as it was and the
only diagnostic is the debug message that announces the value. -/
theorem extract_port_thaw_other_character :
    extract_port_thaw false "syno_port_thaw=2".toList =
      (true, false, [Diag.mk Level.dbg (Msg.thaw_set 1)]) := by
  decide

theorem digit_val_decimal (c : Char) :
    (match digit_val c with
      | none => True
      | some val => (val < 10 ↔ (48 ≤ c.toNat ∧ c.toNat ≤ 57)) ∧
          (val < 10 → val = c.toNat - 48)) ∧
    (digit_val c = none → ¬ (48 ≤ c.toNat ∧ c.toNat ≤ 57)) := by
  unfold digit_val
  simp only
  split_ifs with h1 h2
  · exact ⟨⟨⟨fun _ => h1, fun _ => by omega⟩, fun _ => rfl⟩, fun h => by cases h⟩
  · exact ⟨⟨⟨fun h => by omega, fun h => absurd h h1⟩, fun h => by omega⟩, fun h => by cases h⟩
  · exact ⟨trivial, fun _ => h1⟩

theorem dec_acc_add (s : CStr) :
    ∀ (a b : Nat), a % 2 ^ 64 = b % 2 ^ 64 → dec_acc s a % 2 ^ 64 = dec_acc s b % 2 ^ 64 := by
  induction s with
  | nil => intro a b h; exact h
  | cons c s ih =>
    intro a b h
    unfold dec_acc
    split
    · apply ih
      omega
    · exact h

theorem parse_integer_decimal (s : CStr) :
    ∀ (res rv : Nat) (ovf : Bool), res < 2 ^ 64 →
      (parse_integer 10 s res rv ovf).1 = dec_acc s res % 2 ^ 64 := by
  induction s with
  | nil =>
    intro res rv ovf h
    simp only [parse_integer, dec_acc]
    omega
  | cons c s ih =>
    intro res rv ovf h
    have hd := digit_val_decimal c
    unfold parse_integer dec_acc
    cases hv : digit_val c with
    | none =>
      have := hd.2 hv
      simp only [this, if_false]
      omega
    | some val =>
      rw [hv] at hd
      simp only at hd
      by_cases h10 : 10 ≤ val
      · have : ¬ (48 ≤ c.toNat ∧ c.toNat ≤ 57) := fun hh => by
          have := hd.1.1.mpr hh
          omega
        simp only [h10, if_true, this, if_false]
        omega
      · have hlt : val < 10 := by omega
        have hdig := hd.1.1.mp hlt
        have hval := hd.1.2 hlt
        simp only [h10, if_false, hdig, and_self, if_true]
        rw [ih _ _ _ (Nat.mod_lt _ (by decide))]
        apply dec_acc_add
        rw [hval]
        omega

theorem simple_strtol_decimal (v : CStr) :
    simple_strtol v 10 =
      if char_at v 0 = '-' then to_long (2 ^ 64 - leading_decimal (advance v 1) % 2 ^ 64)
      else to_long (leading_decimal v % 2 ^ 64) := by
  have hfix : ∀ s : CStr, parse_integer_fixup_radix s 10 = (s, 10) := by
    intro s
    simp [parse_integer_fixup_radix]
  have hm : (Char.ofNat 45) = '-' := rfl
  unfold simple_strtol leading_decimal
  simp only [hfix, hm]
  split
  · rw [parse_integer_decimal _ 0 0 false (by decide)]
  · rw [parse_integer_decimal _ 0 0 false (by decide)]

/-- C12, as stated, fails: the value `50abc` is not a decimal integer, and yet
on `dom_szmax=50abc` the field is set to 50 and no error is logged. -/
theorem extract_dom_max_size_trailing_text :
    extract_dom_max_size (default_config sample_params).boot_media "dom_szmax=50abc".toList =
      (true, { (default_config sample_params).boot_media with dom_size_mib := 50 },
        [Diag.mk Level.dbg (Msg.dom_set 50)]) := by
  decide

/-- C12, amended: for every token `dom_szmax=<v>`, the decimal digits at the
start of `v` decide, whatever follows them. If `v` does not start with a
minus sign and its leading digits have a value n with 0 < n < 2^63,
`dom_size_mib` is set to n; if `v` starts with no digit or its leading digits
have the value 0, or if `v` is a minus sign followed by a text whose leading
digits have a value of at most 2^63, an error is logged and `dom_size_mib`
is left as it was, so it stays unset when it was unset; the token is handled
in all these cases. -/
theorem extract_dom_max_size_leading_digits (bm : boot_media) (v : CStr) :
    (char_at v 0 ≠ '-' → leading_decimal v < 2 ^ 63 →
      extract_dom_max_size bm (CMDLINE_CT_DOM_SZMAX.toList ++ v) =
        if 0 < leading_decimal v then
          (true, { bm with dom_size_mib := (leading_decimal v : Int) },
            [Diag.mk Level.dbg (Msg.dom_set (leading_decimal v : Int))])
        else (true, bm, [Diag.mk Level.err (Msg.dom_invalid 0)])) ∧
    (∀ w : CStr, v = '-' :: w → leading_decimal w ≤ 2 ^ 63 →
      extract_dom_max_size bm (CMDLINE_CT_DOM_SZMAX.toList ++ v) =
        (true, bm, [Diag.mk Level.err (Msg.dom_invalid (-(leading_decimal w : Int)))])) := by
  have hp : ensure_cmdline_param (CMDLINE_CT_DOM_SZMAX.toList ++ v) CMDLINE_CT_DOM_SZMAX = true :=
    rfl
  have ha : advance (CMDLINE_CT_DOM_SZMAX.toList ++ v) (strlen_static CMDLINE_CT_DOM_SZMAX) = v :=
    rfl
  constructor
  · intro hm hlt
    simp only [extract_dom_max_size, hp, if_true, ha, simple_strtol_decimal, hm, if_false]
    have e1 : leading_decimal v % 2 ^ 64 = leading_decimal v := Nat.mod_eq_of_lt (by omega)
    have e2 : to_long (leading_decimal v) = (leading_decimal v : Int) := by
      unfold to_long
      rw [e1, if_pos hlt]
    rw [e1, e2]
    by_cases h0 : 0 < leading_decimal v
    · have : ¬ ((leading_decimal v : Int) ≤ 0) := by omega
      simp only [this, if_false, h0, if_true]
    · have hz : leading_decimal v = 0 := by omega
      simp [hz]
  · intro w hv hle
    subst hv
    have hc : char_at ('-' :: w) 0 = '-' := rfl
    have hadv : advance ('-' :: w) 1 = w := rfl
    simp only [extract_dom_max_size, hp, if_true, ha, simple_strtol_decimal, hc, hadv]
    have e1 : leading_decimal w % 2 ^ 64 = leading_decimal w := Nat.mod_eq_of_lt (by omega)
    have e2 : to_long (2 ^ 64 - leading_decimal w) = -(leading_decimal w : Int) := by
      unfold to_long
      by_cases hz : leading_decimal w = 0
      · rw [hz]
        decide
      · have h3 : (2 ^ 64 - leading_decimal w) % 2 ^ 64 = 2 ^ 64 - leading_decimal w :=
          Nat.mod_eq_of_lt (by omega)
        rw [h3, if_neg (by omega)]
        omega
    rw [e1, e2]
    have : (-(leading_decimal w : Int) ≤ 0) := by omega
    simp only [this, if_true]

theorem extract_dom_max_size_leading_digits_witness :
    extract_dom_max_size (default_config sample_params).boot_media
        (CMDLINE_CT_DOM_SZMAX.toList ++ "50abc".toList) =
      (if 0 < leading_decimal "50abc".toList then
        (true, { (default_config sample_params).boot_media with
            dom_size_mib := (leading_decimal "50abc".toList : Int) },
          [Diag.mk Level.dbg (Msg.dom_set (leading_decimal "50abc".toList : Int))])
      else (true, (default_config sample_params).boot_media,
        [Diag.mk Level.err (Msg.dom_invalid 0)])) ∧
    extract_dom_max_size (default_config sample_params).boot_media
        (CMDLINE_CT_DOM_SZMAX.toList ++ "-7".toList) =
      (true, (default_config sample_params).boot_media,
        [Diag.mk Level.err (Msg.dom_invalid (-(leading_decimal "7".toList : Int)))]) :=
  ⟨(extract_dom_max_size_leading_digits (default_config sample_params).boot_media
      "50abc".toList).1 (by decide) (by decide),
    (extract_dom_max_size_leading_digits (default_config sample_params).boot_media
      "-7".toList).2 "7".toList rfl (by decide)⟩

theorem strncmp_eq_iff (p : CStr) (lit : String) (n : Nat) :
    strncmp_eq p lit n = true ↔ ∀ i, i < n → char_at p i = char_at lit.toList i := by
  unfold strncmp_eq
  rw [List.all_eq_true]
  constructor
  · intro h i hi
    simpa using h i (List.mem_range.mpr hi)
  · intro h i hi
    simpa using h i (List.mem_range.mp hi)

/-- C13: `extract_mfg` recognizes a token (a C string, so without a
terminator byte inside) if and only if the token is exactly the three
characters `mfg`: for `mfg` it sets the flag to true and reports handled; for
every other token, longer ones that start with `mfg` such as `mfgx` and
`mfg=1` included, it reports not-recognized and leaves the flag unchanged. -/
theorem extract_mfg_exact_token (is_mfg_boot : Bool) (p : CStr) (hp : NUL ∉ p) :
    (p = "mfg".toList →
      extract_mfg is_mfg_boot p = (true, true, [Diag.mk Level.dbg Msg.mfg_requested])) ∧
    (p ≠ "mfg".toList → extract_mfg is_mfg_boot p = (false, is_mfg_boot, [])) ∧
    extract_mfg is_mfg_boot "mfgx".toList = (false, is_mfg_boot, []) ∧
    extract_mfg is_mfg_boot "mfg=1".toList = (false, is_mfg_boot, []) := by
  refine ⟨?_, ?_, ?_, ?_⟩
  · intro h
    subst h
    rfl
  · intro hne
    have hf : ensure_cmdline_token p CMDLINE_CT_MFG = false := by
      rw [← Bool.not_eq_true]
      intro ht
      unfold ensure_cmdline_token at ht
      rw [strncmp_eq_iff] at ht
      have h0 := ht 0 (by decide)
      have h1 := ht 1 (by decide)
      have h2 := ht 2 (by decide)
      have h3 := ht 3 (by decide)
      rcases p with _ | ⟨a, _ | ⟨b, _ | ⟨c, _ | ⟨d, r⟩⟩⟩⟩
      · have e : NUL = 'm' := h0
        exact absurd e (by decide)
      · have e : NUL = 'f' := h1
        exact absurd e (by decide)
      · have e : NUL = 'g' := h2
        exact absurd e (by decide)
      · apply hne
        have e0 : a = 'm' := h0
        have e1 : b = 'f' := h1
        have e2 : c = 'g' := h2
        rw [e0, e1, e2]
        rfl
      · apply hp
        have e3 : d = NUL := h3
        rw [e3]
        simp
    unfold extract_mfg
    rw [hf]
    rfl
  · cases is_mfg_boot <;> rfl
  · cases is_mfg_boot <;> rfl

theorem extract_mfg_exact_token_witness :
    extract_mfg false "mfg".toList = (true, true, [Diag.mk Level.dbg Msg.mfg_requested]) ∧
    extract_mfg false "mfg2".toList = (false, false, []) :=
  ⟨(extract_mfg_exact_token false "mfg".toList (by decide)).1 rfl,
    (extract_mfg_exact_token false "mfg2".toList (by decide)).2.1 (by decide)⟩

/-- C15: for every token beginning with `satadom=`, `extract_boot_media_type`
decides on the single character after `=`: '1' sets the media type to the
native SATA DoM, '2' sets it to the fake SATA disk, '0' leaves it unchanged
with a warning, and any other character, or none, leaves it unchanged with an
error (so `satadom=3` on the default configuration leaves it unset); the
token is handled in every case. -/
theorem extract_boot_media_type_cases (bm : boot_media) (v : CStr) :
    extract_boot_media_type bm (CMDLINE_KT_SATADOM.toList ++ v) =
      (if char_at v 0 = '1' then
        (true, { bm with type := boot_media_type.BOOT_MEDIA_SATA_DOM },
          [Diag.mk Level.dbg Msg.satadom_native])
      else if char_at v 0 = '2' then
        (true, { bm with type := boot_media_type.BOOT_MEDIA_SATA_DISK },
          [Diag.mk Level.dbg Msg.satadom_fake])
      else if char_at v 0 = '0' then (true, bm, [Diag.mk Level.wrn Msg.satadom_disabled])
      else (true, bm, [Diag.mk Level.err (Msg.satadom_invalid (char_at v 0))])) ∧
    extract_boot_media_type (default_config sample_params).boot_media "satadom=3".toList =
      (true, (default_config sample_params).boot_media,
        [Diag.mk Level.err (Msg.satadom_invalid '3')]) ∧
    extract_boot_media_type bm "satadom=".toList =
      (true, bm, [Diag.mk Level.err (Msg.satadom_invalid NUL)]) := by
  refine ⟨?_, by decide, rfl⟩
  have hp : ensure_cmdline_param (CMDLINE_KT_SATADOM.toList ++ v) CMDLINE_KT_SATADOM = true := rfl
  have hc : char_at (CMDLINE_KT_SATADOM.toList ++ v) (strlen_static CMDLINE_KT_SATADOM) =
    char_at v 0 := rfl
  simp only [extract_boot_media_type, hp, if_true, hc]
  rfl

/-- C16: for every decimal digit d, `extract_netif_num` on the token
`netif_num=<d>` sets the field to d when d is in 1..9, and when d is 0 leaves
the field unchanged and emits exactly one warning and no error; hence after
any sequence of such tokens, starting from the default configuration, the
field is 0 or lies in [1, 9]. -/
theorem extract_netif_num_digit (P : Params) (old : Nat) (d : Fin 10) (ds : List (Fin 10)) :
    extract_netif_num old (CMDLINE_KT_NETIF_NUM.toList ++ [Char.ofNat (48 + d.val)]) =
      (if d.val = 0 then (true, old, [Diag.mk Level.wrn Msg.netif_none])
      else (true, d.val, [Diag.mk Level.dbg (Msg.netif_set (d.val : Int))])) ∧
    (ds.foldl (fun n e =>
        (extract_netif_num n (CMDLINE_KT_NETIF_NUM.toList ++ [Char.ofNat (48 + e.val)])).2.1)
      (default_config P).netif_num = 0 ∨
     (1 ≤ ds.foldl (fun n e =>
          (extract_netif_num n (CMDLINE_KT_NETIF_NUM.toList ++ [Char.ofNat (48 + e.val)])).2.1)
        (default_config P).netif_num ∧
      ds.foldl (fun n e =>
          (extract_netif_num n (CMDLINE_KT_NETIF_NUM.toList ++ [Char.ofNat (48 + e.val)])).2.1)
        (default_config P).netif_num ≤ 9)) := by
  have key : ∀ (n : Nat) (e : Fin 10),
      extract_netif_num n (CMDLINE_KT_NETIF_NUM.toList ++ [Char.ofNat (48 + e.val)]) =
        (if e.val = 0 then (true, n, [Diag.mk Level.wrn Msg.netif_none])
        else (true, e.val, [Diag.mk Level.dbg (Msg.netif_set (e.val : Int))])) := by
    intro n e
    fin_cases e <;> rfl
  refine ⟨key old d, ?_⟩
  have inv : ∀ (l : List (Fin 10)) (n : Nat), n ≤ 9 →
      l.foldl (fun n e =>
        (extract_netif_num n (CMDLINE_KT_NETIF_NUM.toList ++ [Char.ofNat (48 + e.val)])).2.1)
        n ≤ 9 := by
    intro l
    induction l with
    | nil => intro n h; exact h
    | cons e l ih =>
      intro n h
      rw [List.foldl_cons]
      apply ih
      rw [key n e]
      have := e.isLt
      split <;> simp only <;> omega
  have h9 := inv ds (default_config P).netif_num (by simp [default_config])
  omega

theorem device_id_of_small (a : Int) (h0 : 0 ≤ a) (h1 : a ≤ 65535) :
    to_uint a = a.toNat ∧ to_device_id a.toNat = a.toNat := by
  unfold to_device_id to_uint
  constructor <;> omega

theorem pipeline_step_vid (P : Params) (c : runtime_config) (h : Heap) (t : CStr) :
    pipeline_step P c h (CMDLINE_CT_VID.toList ++ t) =
      on_vid P c h (CMDLINE_CT_VID.toList ++ t) := by
  have h1 : ensure_cmdline_param (CMDLINE_CT_VID.toList ++ t) CMDLINE_KT_HW = false := rfl
  have h2 : ensure_cmdline_param (CMDLINE_CT_VID.toList ++ t) CMDLINE_KT_SN = false := rfl
  have h3 : ensure_cmdline_param (CMDLINE_CT_VID.toList ++ t) CMDLINE_KT_SATADOM = false := rfl
  have h4 : ensure_cmdline_param (CMDLINE_CT_VID.toList ++ t) CMDLINE_CT_VID = true := rfl
  have e1 : on_hw P c h (CMDLINE_CT_VID.toList ++ t) = (false, c, h, []) := by
    simp only [on_hw, extract_hw, h1]
    rfl
  have e2 : on_sn P c h (CMDLINE_CT_VID.toList ++ t) = (false, c, h, []) := by
    simp only [on_sn, extract_sn, h2]
    rfl
  have e3 : on_boot_media_type c h (CMDLINE_CT_VID.toList ++ t) = (false, c, h, []) := by
    simp only [on_boot_media_type, extract_boot_media_type, h3]
    rfl
  have e4 : (on_vid P c h (CMDLINE_CT_VID.toList ++ t)).1 = true := by
    simp only [on_vid, extract_vid, h4, if_true]
    (repeat' split) <;> rfl
  simp only [pipeline_step, matchers, List.cons_append, first_match, e1, e2, e3, e4, if_true,
    Bool.false_eq_true, if_false, List.nil_append]
  exact Prod.ext e4.symm rfl

/-- C14: for integers a and b in [0, VID_PID_MAX], the range fitting the
16-bit id, written as texts that `kstrtoll` parses to them: processing
`vid=<a>` and then `vid=<b>` with the pipeline, starting from the default
configuration, leaves the vendor id equal to b, and the second token's
diagnostics contain the overwrite warning exactly when a is not zero. -/
theorem vid_last_write_wins (P : Params) (heap : Heap) (ta tb : CStr) (a b : Int)
    (hmax : P.VID_PID_MAX ≤ 65535)
    (ha : kstrtoll ta 0 = Except.ok a) (hb : kstrtoll tb 0 = Except.ok b)
    (ha0 : 0 ≤ a) (ha1 : a ≤ P.VID_PID_MAX) (hb0 : 0 ≤ b) (hb1 : b ≤ P.VID_PID_MAX) :
    (pipeline_step P
      (pipeline_step P (default_config P) heap (CMDLINE_CT_VID.toList ++ ta)).2.1
      (pipeline_step P (default_config P) heap (CMDLINE_CT_VID.toList ++ ta)).2.2.1
      (CMDLINE_CT_VID.toList ++ tb)).2.1.boot_media.vid = b.toNat ∧
    (pipeline_step P
      (pipeline_step P (default_config P) heap (CMDLINE_CT_VID.toList ++ ta)).2.1
      (pipeline_step P (default_config P) heap (CMDLINE_CT_VID.toList ++ ta)).2.2.1
      (CMDLINE_CT_VID.toList ++ tb)).2.2.2 =
      (if a ≠ 0 then [Diag.mk Level.wrn (Msg.vid_overwrite a.toNat b.toNat)] else []) ++
        [Diag.mk Level.dbg (Msg.vid_set b.toNat)] := by
  have hpa : ensure_cmdline_param (CMDLINE_CT_VID.toList ++ ta) CMDLINE_CT_VID = true := rfl
  have hpb : ensure_cmdline_param (CMDLINE_CT_VID.toList ++ tb) CMDLINE_CT_VID = true := rfl
  have haa : advance (CMDLINE_CT_VID.toList ++ ta) (strlen_static CMDLINE_CT_VID) = ta := rfl
  have hab : advance (CMDLINE_CT_VID.toList ++ tb) (strlen_static CMDLINE_CT_VID) = tb := rfl
  have da := device_id_of_small a ha0 (by omega)
  have db := device_id_of_small b hb0 (by omega)
  have na : ¬ (a > P.VID_PID_MAX) := by omega
  have nb : ¬ (b > P.VID_PID_MAX) := by omega
  have z : (default_config P).boot_media.vid = 0 := rfl
  rw [pipeline_step_vid, pipeline_step_vid]
  simp only [on_vid, extract_vid, hpa, hpb, haa, hab, ha, hb, if_true, na, nb, if_false, da, db, z]
  have hz : a.toNat ≠ 0 ↔ a ≠ 0 := by omega
  simp only [hz]
  exact ⟨trivial, trivial⟩

theorem vid_last_write_wins_witness :
    (pipeline_step sample_params
      (pipeline_step sample_params (default_config sample_params) []
        (CMDLINE_CT_VID.toList ++ "0x10".toList)).2.1
      (pipeline_step sample_params (default_config sample_params) []
        (CMDLINE_CT_VID.toList ++ "0x10".toList)).2.2.1
      (CMDLINE_CT_VID.toList ++ "0x20".toList)).2.1.boot_media.vid = (32 : Int).toNat :=
  (vid_last_write_wins sample_params [] "0x10".toList "0x20".toList 16 32 (by decide) (by decide)
    (by decide) (by decide) (by decide) (by decide) (by decide)).1

theorem add_blacklist_entries_slots (P : Params) (es : List (Nat × String)) :
    ∀ (bl : List (Option CStr)) (h : Heap), heap_ok h →
      (add_blacklist_entries P es bl h).2.1 =
        es.foldl (fun l e => l.set e.1 (some e.2.toList)) bl := by
  induction es with
  | nil => intro bl h _; rfl
  | cons e rest ih =>
    intro bl h hh
    have hk := kmalloc_ok hh
    unfold add_blacklist_entries
    rcases hkm : kmalloc h with ⟨b, heap1⟩
    rw [hkm] at hk
    simp only at hk
    obtain ⟨hb, hh1⟩ := hk
    subst hb
    exact ih _ _ hh1

theorem ten_slots (bl : List (Option CStr)) (h : 10 ≤ bl.length) :
    ∃ b0 b1 b2 b3 b4 b5 b6 b7 b8 b9 rest,
      bl = b0 :: b1 :: b2 :: b3 :: b4 :: b5 :: b6 :: b7 :: b8 :: b9 :: rest := by
  match bl, h with
  | b0 :: b1 :: b2 :: b3 :: b4 :: b5 :: b6 :: b7 :: b8 :: b9 :: rest, _ =>
    exact ⟨b0, b1, b2, b3, b4, b5, b6, b7, b8, b9, rest, rfl⟩

/-- C17: when every allocation succeeds, and the list of redacted tokens has
its `MAX_BLACKLISTED_CMDLINE_TOKENS` slots, at least ten,
`populate_cmdline_blacklist` returns 0 and fills entries 0..8, in this
order, with the vendor-id, product-id, manufacturing-mode, dom-size,
elevator, log-level, printk-buffer, early-printk and port-thaw keys,
whatever the model argument is; entry 9 holds the `satadom=` key exactly when
the build lacks native SATA DoM support and is left untouched otherwise;
every index written is below the capacity and the entries from index 10 on
are untouched. -/
theorem populate_cmdline_blacklist_entries (P : Params) (bl : List (Option CStr))
    (model model2 : CStr) (heap : Heap) (hheap : heap_ok heap)
    (hlen : bl.length = P.MAX_BLACKLISTED_CMDLINE_TOKENS)
    (hcap : 10 ≤ P.MAX_BLACKLISTED_CMDLINE_TOKENS) :
    (populate_cmdline_blacklist P bl model heap).1 = 0 ∧
    (populate_cmdline_blacklist P bl model heap).2.1 =
      [some CMDLINE_CT_VID.toList, some CMDLINE_CT_PID.toList, some CMDLINE_CT_MFG.toList,
        some CMDLINE_CT_DOM_SZMAX.toList, some P.CMDLINE_KT_ELEVATOR.toList,
        some P.CMDLINE_KT_LOGLEVEL.toList, some P.CMDLINE_KT_PK_BUFFER.toList,
        some P.CMDLINE_KT_EARLY_PK.toList, some CMDLINE_KT_THAW.toList] ++
      (if P.NATIVE_SATA_DOM_SUPPORTED then bl.drop 9
        else some CMDLINE_KT_SATADOM.toList :: bl.drop 10) ∧
    populate_cmdline_blacklist P bl model2 heap = populate_cmdline_blacklist P bl model heap ∧
    (∀ e ∈ blacklist_entries P, e.1 < P.MAX_BLACKLISTED_CMDLINE_TOKENS) ∧
    (populate_cmdline_blacklist P bl model heap).2.1.length =
      P.MAX_BLACKLISTED_CMDLINE_TOKENS := by
  have hslots := add_blacklist_entries_slots P (blacklist_entries P) bl heap hheap
  have hval : (populate_cmdline_blacklist P bl model heap).2.1 =
      [some CMDLINE_CT_VID.toList, some CMDLINE_CT_PID.toList, some CMDLINE_CT_MFG.toList,
        some CMDLINE_CT_DOM_SZMAX.toList, some P.CMDLINE_KT_ELEVATOR.toList,
        some P.CMDLINE_KT_LOGLEVEL.toList, some P.CMDLINE_KT_PK_BUFFER.toList,
        some P.CMDLINE_KT_EARLY_PK.toList, some CMDLINE_KT_THAW.toList] ++
      (if P.NATIVE_SATA_DOM_SUPPORTED then bl.drop 9
        else some CMDLINE_KT_SATADOM.toList :: bl.drop 10) := by
    obtain ⟨b0, b1, b2, b3, b4, b5, b6, b7, b8, b9, rest, rfl⟩ := ten_slots bl (by omega)
    unfold populate_cmdline_blacklist
    rw [hslots]
    unfold blacklist_entries
    cases P.NATIVE_SATA_DOM_SUPPORTED <;> rfl
  refine ⟨add_blacklist_entries_ret P _ bl heap hheap, hval, rfl, ?_, ?_⟩
  · intro e he
    have hall : (blacklist_entries P).all (fun e => decide (e.1 < 10)) = true := by
      unfold blacklist_entries
      cases P.NATIVE_SATA_DOM_SUPPORTED <;> rfl
    have := List.all_eq_true.mp hall e he
    simp only [decide_eq_true_eq] at this
    omega
  · rw [hval]
    cases P.NATIVE_SATA_DOM_SUPPORTED <;>
      simp only [Bool.false_eq_true, if_false, if_true, List.length_append, List.length_cons,
        List.length_nil, List.length_drop] <;> omega

theorem populate_cmdline_blacklist_entries_witness :
    (populate_cmdline_blacklist sample_params (default_config sample_params).cmdline_blacklist
      "DS3617xs".toList []).1 = 0 :=
  (populate_cmdline_blacklist_entries sample_params
    (default_config sample_params).cmdline_blacklist "DS3617xs".toList [] []
    (by intro b hb; cases hb) rfl (by decide)).1

theorem on_hw_inert (P : Params) : inert (on_hw P) := by
  intro c h p hf
  have hfl := (matcher_flags P h p [] c.boot_media c.hw 0 false).1
  have he : ensure_cmdline_param p CMDLINE_KT_HW = false := by
    rw [← hfl]; exact hf
  simp only [on_hw, extract_hw, he]
  rfl

theorem on_sn_inert (P : Params) : inert (on_sn P) := by
  intro c h p hf
  have hfl := (matcher_flags P h p [] c.boot_media c.sn 0 false).2.1
  have he : ensure_cmdline_param p CMDLINE_KT_SN = false := by
    rw [← hfl]; exact hf
  simp only [on_sn, extract_sn, he]
  rfl

theorem on_boot_media_type_inert : inert on_boot_media_type := by
  intro c h p hf
  have hfl := (matcher_flags sample_params h p [] c.boot_media [] 0 false).2.2.1
  have he : ensure_cmdline_param p CMDLINE_KT_SATADOM = false := by
    rw [← hfl]; exact hf
  simp only [on_boot_media_type, extract_boot_media_type, he]
  rfl

theorem on_vid_inert (P : Params) : inert (on_vid P) := by
  intro c h p hf
  have hfl := (matcher_flags P h p [] c.boot_media [] c.boot_media.vid false).2.2.2.1
  have he : ensure_cmdline_param p CMDLINE_CT_VID = false := by
    rw [← hfl]; exact hf
  simp only [on_vid, extract_vid, he]
  rfl

theorem on_pid_inert (P : Params) : inert (on_pid P) := by
  intro c h p hf
  have hfl := (matcher_flags P h p [] c.boot_media [] c.boot_media.pid false).2.2.2.2.1
  have he : ensure_cmdline_param p CMDLINE_CT_PID = false := by
    rw [← hfl]; exact hf
  simp only [on_pid, extract_pid, he]
  rfl

theorem on_dom_max_size_inert : inert on_dom_max_size := by
  intro c h p hf
  have hfl := (matcher_flags sample_params h p [] c.boot_media [] 0 false).2.2.2.2.2.1
  have he : ensure_cmdline_param p CMDLINE_CT_DOM_SZMAX = false := by
    rw [← hfl]; exact hf
  simp only [on_dom_max_size, extract_dom_max_size, he]
  rfl

theorem on_mfg_inert : inert on_mfg := by
  intro c h p hf
  have hfl := (matcher_flags sample_params h p [] c.boot_media [] 0
    c.boot_media.mfg_mode).2.2.2.2.2.2.1
  have he : ensure_cmdline_token p CMDLINE_CT_MFG = false := by
    rw [← hfl]; exact hf
  simp only [on_mfg, extract_mfg, he]
  rfl

theorem on_port_thaw_inert : inert on_port_thaw := by
  intro c h p hf
  have hfl := (matcher_flags sample_params h p [] c.boot_media [] 0
    c.port_thaw).2.2.2.2.2.2.2.1
  have he : ensure_cmdline_param p CMDLINE_KT_THAW = false := by
    rw [← hfl]; exact hf
  simp only [on_port_thaw, extract_port_thaw, he]
  rfl

theorem on_netif_num_inert : inert on_netif_num := by
  intro c h p hf
  have hfl := (matcher_flags sample_params h p [] c.boot_media [] c.netif_num
    false).2.2.2.2.2.2.2.2.1
  have he : ensure_cmdline_param p CMDLINE_KT_NETIF_NUM = false := by
    rw [← hfl]; exact hf
  simp only [on_netif_num, extract_netif_num, he]
  rfl

theorem on_netif_macs_inert (P : Params) : inert (on_netif_macs P) := by
  intro c h p hf
  simp only [on_netif_macs, extract_netif_macs] at hf ⊢
  split at hf
  · exact absurd hf (by simp)
  · split at hf
    · rename_i h1 h2
      simp only [h1, h2, if_true]
      rfl
    · exact absurd hf (by simp)

theorem matchers_inert (P : Params) : ∀ m ∈ matchers P, inert m := by
  intro m hm
  simp only [matchers, List.mem_cons, List.mem_singleton, List.not_mem_nil, or_false] at hm
  rcases hm with rfl | rfl | rfl | rfl | rfl | rfl | rfl | rfl | rfl | rfl
  · exact on_hw_inert P
  · exact on_sn_inert P
  · exact on_boot_media_type_inert
  · exact on_vid_inert P
  · exact on_pid_inert P
  · exact on_dom_max_size_inert
  · exact on_mfg_inert
  · exact on_port_thaw_inert
  · exact on_netif_num_inert
  · exact on_netif_macs_inert P

theorem on_hw_tag (P : Params) (c : runtime_config) (h : Heap) (p : CStr)
    (hr : (on_hw P c h p).1 = true) : token_tag p = 0 := by
  have he : ensure_cmdline_param p CMDLINE_KT_HW = true := by
    rw [← (matcher_flags P h p [] c.boot_media c.hw 0 false).1]; exact hr
  have ht := (strncmp_eq_iff _ _ _).mp he
  have f0 : char_at p 0 = 's' := ht 0 (by decide)
  have f1 : char_at p 1 = 'y' := ht 1 (by decide)
  have f5 : char_at p 5 = 'h' := ht 5 (by decide)
  simp [token_tag, f0, f1, f5]

theorem on_sn_tag (P : Params) (c : runtime_config) (h : Heap) (p : CStr)
    (hr : (on_sn P c h p).1 = true) : token_tag p = 1 := by
  have he : ensure_cmdline_param p CMDLINE_KT_SN = true := by
    rw [← (matcher_flags P h p [] c.boot_media c.sn 0 false).2.1]; exact hr
  have ht := (strncmp_eq_iff _ _ _).mp he
  have f0 : char_at p 0 = 's' := ht 0 (by decide)
  have f1 : char_at p 1 = 'n' := ht 1 (by decide)
  simp [token_tag, f0, f1]

theorem on_boot_media_type_tag (c : runtime_config) (h : Heap) (p : CStr)
    (hr : (on_boot_media_type c h p).1 = true) : token_tag p = 2 := by
  have he : ensure_cmdline_param p CMDLINE_KT_SATADOM = true := by
    rw [← (matcher_flags sample_params h p [] c.boot_media [] 0 false).2.2.1]; exact hr
  have ht := (strncmp_eq_iff _ _ _).mp he
  have f0 : char_at p 0 = 's' := ht 0 (by decide)
  have f1 : char_at p 1 = 'a' := ht 1 (by decide)
  simp [token_tag, f0, f1]

theorem on_vid_tag (P : Params) (c : runtime_config) (h : Heap) (p : CStr)
    (hr : (on_vid P c h p).1 = true) : token_tag p = 3 := by
  have he : ensure_cmdline_param p CMDLINE_CT_VID = true := by
    rw [← (matcher_flags P h p [] c.boot_media [] c.boot_media.vid false).2.2.2.1]; exact hr
  have ht := (strncmp_eq_iff _ _ _).mp he
  have f0 : char_at p 0 = 'v' := ht 0 (by decide)
  simp [token_tag, f0]

theorem on_pid_tag (P : Params) (c : runtime_config) (h : Heap) (p : CStr)
    (hr : (on_pid P c h p).1 = true) : token_tag p = 4 := by
  have he : ensure_cmdline_param p CMDLINE_CT_PID = true := by
    rw [← (matcher_flags P h p [] c.boot_media [] c.boot_media.pid false).2.2.2.2.1]; exact hr
  have ht := (strncmp_eq_iff _ _ _).mp he
  have f0 : char_at p 0 = 'p' := ht 0 (by decide)
  simp [token_tag, f0]

theorem on_dom_max_size_tag (c : runtime_config) (h : Heap) (p : CStr)
    (hr : (on_dom_max_size c h p).1 = true) : token_tag p = 5 := by
  have he : ensure_cmdline_param p CMDLINE_CT_DOM_SZMAX = true := by
    rw [← (matcher_flags sample_params h p [] c.boot_media [] 0 false).2.2.2.2.2.1]; exact hr
  have ht := (strncmp_eq_iff _ _ _).mp he
  have f0 : char_at p 0 = 'd' := ht 0 (by decide)
  simp [token_tag, f0]

theorem on_mfg_tag (c : runtime_config) (h : Heap) (p : CStr)
    (hr : (on_mfg c h p).1 = true) : token_tag p = 6 := by
  have he : ensure_cmdline_token p CMDLINE_CT_MFG = true := by
    rw [← (matcher_flags sample_params h p [] c.boot_media [] 0
      c.boot_media.mfg_mode).2.2.2.2.2.2.1]; exact hr
  have ht := (strncmp_eq_iff _ _ _).mp he
  have f0 : char_at p 0 = 'm' := ht 0 (by decide)
  have f1 : char_at p 1 = 'f' := ht 1 (by decide)
  simp [token_tag, f0, f1]

theorem on_port_thaw_tag (c : runtime_config) (h : Heap) (p : CStr)
    (hr : (on_port_thaw c h p).1 = true) : token_tag p = 7 := by
  have he : ensure_cmdline_param p CMDLINE_KT_THAW = true := by
    rw [← (matcher_flags sample_params h p [] c.boot_media [] 0
      c.port_thaw).2.2.2.2.2.2.2.1]; exact hr
  have ht := (strncmp_eq_iff _ _ _).mp he
  have f0 : char_at p 0 = 's' := ht 0 (by decide)
  have f1 : char_at p 1 = 'y' := ht 1 (by decide)
  have f5 : char_at p 5 = 'p' := ht 5 (by decide)
  simp [token_tag, f0, f1, f5]

theorem on_netif_num_tag (c : runtime_config) (h : Heap) (p : CStr)
    (hr : (on_netif_num c h p).1 = true) : token_tag p = 8 := by
  have he : ensure_cmdline_param p CMDLINE_KT_NETIF_NUM = true := by
    rw [← (matcher_flags sample_params h p [] c.boot_media [] c.netif_num
      false).2.2.2.2.2.2.2.2.1]; exact hr
  have ht := (strncmp_eq_iff _ _ _).mp he
  have f0 : char_at p 0 = 'n' := ht 0 (by decide)
  simp [token_tag, f0]

theorem on_netif_macs_tag (P : Params) (c : runtime_config) (h : Heap) (p : CStr)
    (hr : (on_netif_macs P c h p).1 = true) : token_tag p = 9 := by
  have hmac : strncmp_eq p "mac" 3 = true := by
    simp only [on_netif_macs, extract_netif_macs] at hr
    split at hr
    · rename_i h1
      rw [strncmp_eq_iff] at h1 ⊢
      intro i hi
      have := h1 i (by unfold strlen_static CMDLINE_KT_MACS; simp; omega)
      rw [this]
      have hi3 : i = 0 ∨ i = 1 ∨ i = 2 := by omega
      rcases hi3 with rfl | rfl | rfl <;> rfl
    · split at hr
      · exact absurd hr (by simp)
      · rename_i h2
        rw [← Bool.not_eq_false]
        intro hf
        exact h2 (Or.inl hf)
  have ht := (strncmp_eq_iff _ _ _).mp hmac
  have f0 : char_at p 0 = 'm' := ht 0 (by decide)
  have f1 : char_at p 1 = 'a' := ht 1 (by decide)
  simp [token_tag, f0, f1]

theorem matchers_tag (P : Params) (i : Nat) (hi : i < (matchers P).length)
    (c : runtime_config) (h : Heap) (p : CStr)
    (hr : ((matchers P).get ⟨i, hi⟩ c h p).1 = true) : token_tag p = i := by
  have h10 : i < 10 := hi
  interval_cases i
  · exact on_hw_tag P c h p hr
  · exact on_sn_tag P c h p hr
  · exact on_boot_media_type_tag c h p hr
  · exact on_vid_tag P c h p hr
  · exact on_pid_tag P c h p hr
  · exact on_dom_max_size_tag c h p hr
  · exact on_mfg_tag c h p hr
  · exact on_port_thaw_tag c h p hr
  · exact on_netif_num_tag c h p hr
  · exact on_netif_macs_tag P c h p hr

theorem first_match_skip (l : List Matcher) (rest : List Matcher) (c : runtime_config)
    (h : Heap) (p : CStr) (hin : ∀ m ∈ l, inert m) (hno : ∀ m ∈ l, (m c h p).1 = false) :
    first_match (l ++ rest) c h p = first_match rest c h p := by
  induction l with
  | nil => rfl
  | cons m l ih =>
    have h1 := hno m (List.mem_cons_self _ _)
    have h2 := hin m (List.mem_cons_self _ _) c h p h1
    rw [List.cons_append, first_match]
    simp only [h2, Bool.false_eq_true, if_false, List.nil_append]
    exact ih (fun x hx => hin x (List.mem_cons_of_mem _ hx))
      (fun x hx => hno x (List.mem_cons_of_mem _ hx))

theorem first_match_hit (l : List Matcher) (rest : List Matcher) (c : runtime_config)
    (h : Heap) (p : CStr) (hin : ∀ m ∈ l, inert m)
    (hpw : l.Pairwise fun m1 m2 => ∀ q, ¬ (recognizes m1 q ∧ recognizes m2 q))
    (m : Matcher) (hm : m ∈ l) (hr : (m c h p).1 = true) :
    first_match (l ++ rest) c h p = m c h p := by
  induction l with
  | nil => cases hm
  | cons m1 l ih =>
    rw [List.pairwise_cons] at hpw
    rw [List.cons_append, first_match]
    rcases List.mem_cons.mp hm with rfl | hml
    · simp only [hr, if_true]
    · have hf : (m1 c h p).1 = false := by
        rw [← Bool.not_eq_true]
        intro ht
        exact hpw.1 m hml p ⟨⟨c, h, ht⟩, ⟨c, h, hr⟩⟩
      have h2 := hin m1 (List.mem_cons_self _ _) c h p hf
      simp only [h2, Bool.false_eq_true, if_false, List.nil_append]
      exact ih (fun x hx => hin x (List.mem_cons_of_mem _ hx)) hpw.2 hml

theorem matchers_pairwise (P : Params) :
    (matchers P).Pairwise fun m1 m2 => ∀ q, ¬ (recognizes m1 q ∧ recognizes m2 q) := by
  rw [List.pairwise_iff_getElem]
  intro i j hi hj hij q hq
  obtain ⟨⟨c1, h1, r1⟩, ⟨c2, h2, r2⟩⟩ := hq
  have t1 := matchers_tag P i hi c1 h1 q r1
  have t2 := matchers_tag P j hj c2 h2 q r2
  omega

/-- C20: no token is recognized by two of the ten option matchers, whatever
the states they are called in; a matcher that does not recognize a token
changes nothing (configuration, allocator, diagnostics); hence for every
token and state the `||` chain gives the same result under every ordering of
the ten matchers, the catch-all kept last. -/
theorem matchers_order_independent (P : Params) :
    (∀ (i j : Fin (matchers P).length), i ≠ j → ∀ (p : CStr),
      ¬ (recognizes ((matchers P).get i) p ∧ recognizes ((matchers P).get j) p)) ∧
    (∀ m ∈ matchers P, inert m) ∧
    (∀ (l : List Matcher), l.Perm (matchers P) →
      ∀ (config : runtime_config) (heap : Heap) (p : CStr),
        first_match (l ++ [on_unrecognized]) config heap p = pipeline_step P config heap p) := by
  refine ⟨?_, matchers_inert P, ?_⟩
  · intro i j hij p hq
    obtain ⟨⟨c1, h1, r1⟩, ⟨c2, h2, r2⟩⟩ := hq
    have t1 := matchers_tag P i.val i.isLt c1 h1 p r1
    have t2 := matchers_tag P j.val j.isLt c2 h2 p r2
    exact hij (Fin.ext (by omega))
  · intro l hl c h p
    have hsym : ∀ {x y : Matcher}, (∀ q, ¬ (recognizes x q ∧ recognizes y q)) →
        ∀ q, ¬ (recognizes y q ∧ recognizes x q) := fun hxy q hq => hxy q ⟨hq.2, hq.1⟩
    have hpwl := (List.Perm.pairwise_iff hsym hl).mpr (matchers_pairwise P)
    have hinl : ∀ m ∈ l, inert m := fun m hm => matchers_inert P m (hl.mem_iff.mp hm)
    unfold pipeline_step
    by_cases hex : ∃ m ∈ matchers P, (m c h p).1 = true
    · obtain ⟨m, hm, hr⟩ := hex
      rw [first_match_hit l _ c h p hinl hpwl m (hl.mem_iff.mpr hm) hr,
        first_match_hit (matchers P) _ c h p (matchers_inert P) (matchers_pairwise P) m hm hr]
    · have hno : ∀ m ∈ matchers P, (m c h p).1 = false := by
        intro m hm
        rw [← Bool.not_eq_true]
        intro ht
        exact hex ⟨m, hm, ht⟩
      rw [first_match_skip l _ c h p hinl (fun m hm => hno m (hl.mem_iff.mp hm)),
        first_match_skip (matchers P) _ c h p (matchers_inert P) hno]

theorem matchers_order_independent_witness :
    first_match ((matchers sample_params).reverse ++ [on_unrecognized])
        (default_config sample_params) [] "vid=1".toList =
      pipeline_step sample_params (default_config sample_params) [] "vid=1".toList :=
  (matchers_order_independent sample_params).2.2 (matchers sample_params).reverse
    (List.reverse_perm _) (default_config sample_params) [] "vid=1".toList

theorem prefix_of_getD (l : CStr) (hl : NUL ∉ l) :
    ∀ (p : CStr), (∀ i, i < l.length → char_at p i = char_at l i) → l <+: p := by
  induction l with
  | nil => intro p _; exact List.nil_prefix
  | cons a l ih =>
    intro p h
    have ha : a ≠ NUL := fun e => hl (e ▸ List.mem_cons_self _ _)
    cases p with
    | nil =>
      have h0 := h 0 (by simp)
      have e : NUL = a := h0
      exact absurd e.symm ha
    | cons b p =>
      have h0 : b = a := h 0 (by simp)
      subst h0
      rw [List.cons_prefix_cons]
      refine ⟨rfl, ih (fun e => hl (List.mem_cons_of_mem _ e)) p ?_⟩
      intro i hi
      exact h (i + 1) (by simp only [List.length_cons]; omega)

theorem prefix_of_ensure (p : CStr) (lit : String) (hl : NUL ∉ lit.toList)
    (h : ensure_cmdline_param p lit = true) : lit.toList <+: p := by
  unfold ensure_cmdline_param strlen_static at h
  exact prefix_of_getD _ hl p ((strncmp_eq_iff _ _ _).mp h)

theorem mfg_of_ensure (p : CStr) (hp : NUL ∉ p)
    (ht : ensure_cmdline_token p CMDLINE_CT_MFG = true) : p = "mfg".toList := by
  unfold ensure_cmdline_token at ht
  rw [strncmp_eq_iff] at ht
  have h0 := ht 0 (by decide)
  have h1 := ht 1 (by decide)
  have h2 := ht 2 (by decide)
  have h3 := ht 3 (by decide)
  rcases p with _ | ⟨a, _ | ⟨b, _ | ⟨c, _ | ⟨d, r⟩⟩⟩⟩
  · have e : NUL = 'm' := h0
    exact absurd e (by decide)
  · have e : NUL = 'f' := h1
    exact absurd e (by decide)
  · have e : NUL = 'g' := h2
    exact absurd e (by decide)
  · have e0 : a = 'm' := h0
    have e1 : b = 'f' := h1
    have e2 : c = 'g' := h2
    rw [e0, e1, e2]
    rfl
  · exfalso
    apply hp
    have e3 : d = NUL := h3
    rw [e3]
    simp

theorem macs_shape_of_flag (P : Params) (macs : List (Option CStr)) (heap : Heap) (p : CStr)
    (hr : (extract_netif_macs P macs heap p).1 = true) :
    CMDLINE_KT_MACS.toList <+: p ∨
    ∃ (d : Char) (rest : CStr), p = 'm' :: 'a' :: 'c' :: d :: '=' :: rest ∧
      49 ≤ d.toNat ∧ d.toNat < 128 ∧ d.toNat ≤ 48 + P.MAX_NET_IFACES := by
  simp only [extract_netif_macs] at hr
  split at hr
  · rename_i h1
    exact Or.inl (prefix_of_ensure p CMDLINE_KT_MACS (by decide) h1)
  · split at hr
    · exact absurd hr (by simp)
    · rename_i h2
      right
      simp only [not_or, Bool.not_eq_false, not_not, not_lt] at h2
      obtain ⟨g1, g2, g3, g4⟩ := h2
      have ht := (strncmp_eq_iff _ _ _).mp g1
      have h0 := ht 0 (by decide)
      have h1 := ht 1 (by decide)
      have h2 := ht 2 (by decide)
      rcases p with _ | ⟨a, _ | ⟨b, _ | ⟨c, _ | ⟨d, _ | ⟨e, r⟩⟩⟩⟩⟩
      · have e : NUL = '=' := g2
        exact absurd e (by decide)
      · have e : NUL = '=' := g2
        exact absurd e (by decide)
      · have e : NUL = '=' := g2
        exact absurd e (by decide)
      · have e : NUL = '=' := g2
        exact absurd e (by decide)
      · have e : NUL = '=' := g2
        exact absurd e (by decide)
      · have e0 : a = 'm' := h0
        have e1 : b = 'a' := h1
        have e2 : c = 'c' := h2
        have e4 : e = '=' := g2
        have g3d : 49 ≤ char_val d := g3
        have g4d : char_val d ≤ 49 + ((P.MAX_NET_IFACES : Int) - 1) := g4
        refine ⟨d, r, by rw [e0, e1, e2, e4], ?_⟩
        unfold char_val at g3d g4d
        by_cases h128 : d.toNat < 128
        · rw [if_pos h128] at g3d g4d
          omega
        · rw [if_neg h128] at g3d
          omega

theorem unknown_token_chain (P : Params) (config : runtime_config) (heap : Heap)
    (p : CStr) (hmax : P.MAX_NET_IFACES ≤ 9) (hnul : NUL ∉ p)
    (h_hw : ¬ CMDLINE_KT_HW.toList <+: p) (h_sn : ¬ CMDLINE_KT_SN.toList <+: p)
    (h_satadom : ¬ CMDLINE_KT_SATADOM.toList <+: p) (h_vid : ¬ CMDLINE_CT_VID.toList <+: p)
    (h_pid : ¬ CMDLINE_CT_PID.toList <+: p) (h_dom : ¬ CMDLINE_CT_DOM_SZMAX.toList <+: p)
    (h_thaw : ¬ CMDLINE_KT_THAW.toList <+: p) (h_netif : ¬ CMDLINE_KT_NETIF_NUM.toList <+: p)
    (h_macs : ¬ CMDLINE_KT_MACS.toList <+: p) (h_mfg : p ≠ CMDLINE_CT_MFG.toList)
    (h_mac : ¬ ∃ (d : Char) (rest : CStr), p = 'm' :: 'a' :: 'c' :: d :: '=' :: rest ∧
      49 ≤ d.toNat ∧ d.toNat ≤ 57 ∧ d.toNat ≤ 48 + P.MAX_NET_IFACES) :
    pipeline_step P config heap p =
      (true, config, heap, [Diag.mk Level.dbg (Msg.unrecognized p)]) := by
  have nf : ∀ (lit : String), NUL ∉ lit.toList → ¬ lit.toList <+: p →
      ensure_cmdline_param p lit = false := by
    intro lit hl hn
    rw [← Bool.not_eq_true]
    exact fun ht => hn (prefix_of_ensure p lit hl ht)
  have hno : ∀ m ∈ matchers P, (m config heap p).1 = false := by
    intro m hm
    simp only [matchers, List.mem_cons, List.mem_singleton, List.not_mem_nil, or_false] at hm
    rcases hm with rfl | rfl | rfl | rfl | rfl | rfl | rfl | rfl | rfl | rfl
    · exact ((matcher_flags P heap p [] config.boot_media config.hw 0 false).1).trans
        (nf _ (by decide) h_hw)
    · exact ((matcher_flags P heap p [] config.boot_media config.sn 0 false).2.1).trans
        (nf _ (by decide) h_sn)
    · exact ((matcher_flags P heap p [] config.boot_media [] 0 false).2.2.1).trans
        (nf _ (by decide) h_satadom)
    · exact ((matcher_flags P heap p [] config.boot_media [] config.boot_media.vid
        false).2.2.2.1).trans (nf _ (by decide) h_vid)
    · exact ((matcher_flags P heap p [] config.boot_media [] config.boot_media.pid
        false).2.2.2.2.1).trans (nf _ (by decide) h_pid)
    · exact ((matcher_flags P heap p [] config.boot_media [] 0 false).2.2.2.2.2.1).trans
        (nf _ (by decide) h_dom)
    · refine ((matcher_flags P heap p [] config.boot_media [] 0
        config.boot_media.mfg_mode).2.2.2.2.2.2.1).trans ?_
      rw [← Bool.not_eq_true]
      exact fun ht => h_mfg (mfg_of_ensure p hnul ht)
    · exact ((matcher_flags P heap p [] config.boot_media [] 0
        config.port_thaw).2.2.2.2.2.2.2.1).trans (nf _ (by decide) h_thaw)
    · exact ((matcher_flags P heap p [] config.boot_media [] config.netif_num
        false).2.2.2.2.2.2.2.2.1).trans (nf _ (by decide) h_netif)
    · rw [← Bool.not_eq_true]
      intro ht
      rcases macs_shape_of_flag P config.macs heap p ht with hpre | ⟨d, rest, e, d1, d2, d3⟩
      · exact h_macs hpre
      · exact h_mac ⟨d, rest, e, d1, by omega, d3⟩
  unfold pipeline_step
  rw [first_match_skip (matchers P) _ config heap p (matchers_inert P) hno]
  rfl

/-- C18: for every token (a C string) that matches none of the option
grammars (it does not start with `syno_hw_version=`, `sn=`, `satadom=`,
`vid=`, `pid=`, `dom_szmax=`, `syno_port_thaw=`, `netif_num=` or `macs=`, is
not exactly `mfg`, and is not of the shape `mac<d>=...` with a digit d in
1..MAX_NET_IFACES, where MAX_NET_IFACES is at most 9 as the source
requires), such as `foo=bar`, the chain of matchers leaves the configuration
(and the allocator) unchanged and emits exactly one diagnostic, the debug
message of the catch-all. -/
theorem unknown_token_falls_through (P : Params) (config : runtime_config) (heap : Heap)
    (p : CStr) (hmax : P.MAX_NET_IFACES ≤ 9) (hnul : NUL ∉ p)
    (h_hw : ¬ CMDLINE_KT_HW.toList <+: p) (h_sn : ¬ CMDLINE_KT_SN.toList <+: p)
    (h_satadom : ¬ CMDLINE_KT_SATADOM.toList <+: p) (h_vid : ¬ CMDLINE_CT_VID.toList <+: p)
    (h_pid : ¬ CMDLINE_CT_PID.toList <+: p) (h_dom : ¬ CMDLINE_CT_DOM_SZMAX.toList <+: p)
    (h_thaw : ¬ CMDLINE_KT_THAW.toList <+: p) (h_netif : ¬ CMDLINE_KT_NETIF_NUM.toList <+: p)
    (h_macs : ¬ CMDLINE_KT_MACS.toList <+: p) (h_mfg : p ≠ CMDLINE_CT_MFG.toList)
    (h_mac : ¬ ∃ (d : Char) (rest : CStr), p = 'm' :: 'a' :: 'c' :: d :: '=' :: rest ∧
      49 ≤ d.toNat ∧ d.toNat ≤ 57 ∧ d.toNat ≤ 48 + P.MAX_NET_IFACES) :
    pipeline_step P config heap p =
      (true, config, heap, [Diag.mk Level.dbg (Msg.unrecognized p)]) ∧
    pipeline_step P config heap "foo=bar".toList =
      (true, config, heap, [Diag.mk Level.dbg (Msg.unrecognized "foo=bar".toList)]) :=
  ⟨unknown_token_chain P config heap p hmax hnul h_hw h_sn h_satadom h_vid h_pid h_dom h_thaw
      h_netif h_macs h_mfg h_mac,
    unknown_token_chain P config heap "foo=bar".toList hmax (by decide) (by decide) (by decide)
      (by decide) (by decide) (by decide) (by decide) (by decide) (by decide) (by decide)
      (by decide) (by rintro ⟨d, rest, e, _⟩; cases e)⟩

theorem unknown_token_falls_through_witness :
    pipeline_step sample_params (default_config sample_params) [] "quiet".toList =
      (true, default_config sample_params, [],
        [Diag.mk Level.dbg (Msg.unrecognized "quiet".toList)]) :=
  (unknown_token_falls_through sample_params (default_config sample_params) [] "quiet".toList
    (by decide) (by decide) (by decide) (by decide) (by decide) (by decide) (by decide)
    (by decide) (by decide) (by decide) (by decide) (by decide)
    (by rintro ⟨d, rest, e, _⟩; cases e)).1

/-- C19: when the scratch buffer is allocated and the cache is empty, the
fetch reporting no error but leaving the line empty, then
`extract_config_from_cmdline` returns -EIO and the configuration is exactly
as it was passed in: no token is processed, nothing more is allocated and
`populate_cmdline_blacklist` is not run (the diagnostics are those of the
fetch followed by the critical message). And whenever the call returns 0,
`get_kernel_cmdline` returned a strictly positive value (the exit code of the
allocation macro being an error code, not 0). -/
theorem extract_config_from_cmdline_empty_line (P : Params) (prov : Provider) (K : Kernel)
    (config : runtime_config) (heap : Heap) :
    ((kmalloc heap).1 = true → K.cmdline_cache = [] →
      ∀ (text : CStr) (count : Nat),
        prov K.proc_show_calls P.CMDLINE_MAX = Fetch.written text count →
        buffer_cstr P.CMDLINE_MAX text = [] →
        (extract_kernel_cmdline P prov K).1 = 0 ∧
        extract_config_from_cmdline P prov K config heap =
          { ret := -EIO_errno, config := config,
            kernel := Kernel.mk [] (K.proc_show_calls + 1), heap := (kmalloc heap).2,
            log := (extract_kernel_cmdline P prov K).2.2 ++
              [Diag.mk Level.crt Msg.extract_failed] }) ∧
    (P.KALLOC_EXIT_CODE ≠ 0 → (extract_config_from_cmdline P prov K config heap).ret = 0 →
      0 < (get_kernel_cmdline P prov K [] P.CMDLINE_MAX).1) := by
  constructor
  · intro halloc hcache text count hfetch hempty
    have hx : extract_kernel_cmdline P prov K =
        (0, Kernel.mk [] (K.proc_show_calls + 1),
          [Diag.mk Level.dbg (Msg.cmdline_count (count % 2 ^ 32))] ++
            (if count = P.CMDLINE_MAX then
              [Diag.mk Level.wrn (Msg.cmdline_truncated P.CMDLINE_MAX)] else [])) := by
      simp only [extract_kernel_cmdline, hfetch, hempty]
    refine ⟨by rw [hx], ?_⟩
    have hg : get_kernel_cmdline P prov K [] P.CMDLINE_MAX =
        ((strscpy [] [] P.CMDLINE_MAX).2, [], Kernel.mk [] (K.proc_show_calls + 1),
          (extract_kernel_cmdline P prov K).2.2) := by
      simp only [get_kernel_cmdline, hcache, if_true, hx, ne_eq, not_true_eq_false, if_false,
        gt_iff_lt, lt_self_iff_false]
      have h1 : (strscpy ([] : CStr) [] P.CMDLINE_MAX).1 = [] := by
        rw [strscpy_nil_fst]
        simp
      rw [h1]
    have hle : (strscpy ([] : CStr) [] P.CMDLINE_MAX).2 ≤ 0 := by
      unfold strscpy
      split_ifs
      · decide
      · simp
      · show -E2BIG ≤ 0
        decide
    unfold extract_config_from_cmdline
    rcases hkm : kmalloc heap with ⟨b, heap1⟩
    rw [hkm] at halloc
    simp only at halloc
    subst halloc
    simp only [hg, hle, if_true]
  · intro hcode hret
    unfold extract_config_from_cmdline at hret
    rcases hkm : kmalloc heap with ⟨b, heap1⟩
    rw [hkm] at hret
    cases b with
    | false => exact absurd hret hcode
    | true =>
      simp only at hret
      by_contra hn
      have hle : (get_kernel_cmdline P prov K [] P.CMDLINE_MAX).1 ≤ 0 := by omega
      rw [if_pos hle] at hret
      have hne : (-EIO_errno : Int) ≠ 0 := by decide
      exact hne hret

theorem extract_config_from_cmdline_empty_line_witness :
    (extract_config_from_cmdline sample_params (fun _ _ => Fetch.written [] 0) (Kernel.mk [] 0)
      (default_config sample_params) []).ret = -EIO_errno ∧
    (extract_config_from_cmdline sample_params (fun _ _ => Fetch.written [] 0) (Kernel.mk [] 0)
      (default_config sample_params) []).config = default_config sample_params := by
  have h := ((extract_config_from_cmdline_empty_line sample_params
    (fun _ _ => Fetch.written [] 0) (Kernel.mk [] 0) (default_config sample_params) []).1
    rfl rfl [] 0 rfl rfl).2
  rw [h]
  exact ⟨rfl, rfl⟩

end RrLkms
